import Mathlib

/-!
Verification of the honeypot core: a shallow embedding of the virtual
filesystem, the shared SSH/Telnet shell command set, and the FTP, MySQL and
HTTP service logic, with theorems settling the specification's claims.

String-manipulating Python code is embedded at the character-list level:
each helper mirrors the semantics of the corresponding Python `str` method
(for the character classes that actually occur in the configs and protocols,
i.e. ASCII).
-/

namespace Honeypot

/-! ### Python string primitives -/

/-- Python `s.split(sep)` for a one-character separator: keeps empty pieces,
`"".split(sep) == [""]`. -/
def splitCharList (sep : Char) : List Char → List (List Char)
  | [] => [[]]
  | c :: rest =>
    if c = sep then [] :: splitCharList sep rest
    else
      match splitCharList sep rest with
      | [] => [[c]]
      | s :: ss => (c :: s) :: ss

def pySplitChar (sep : Char) (s : String) : List String :=
  (splitCharList sep s.data).map fun l => ⟨l⟩

/-- Python `sep.join(parts)` for a one-character separator. -/
def joinCharList (sep : Char) : List (List Char) → List Char
  | [] => []
  | [p] => p
  | p :: rest => p ++ sep :: joinCharList sep rest

def pyJoin (sep : Char) (parts : List String) : String :=
  ⟨joinCharList sep (parts.map String.data)⟩

/-- Python `s.strip(chars)` generalised to a predicate: drop matching
characters from both ends. -/
def stripList (p : Char → Bool) (l : List Char) : List Char :=
  ((l.dropWhile p).reverse.dropWhile p).reverse

def pyStripChars (p : Char → Bool) (s : String) : String :=
  ⟨stripList p s.data⟩

/-- Python `s.strip("/")`. -/
def pyStripSlash (s : String) : String :=
  pyStripChars (fun c => c = '/') s

/-- Python `s.strip()` (whitespace on both ends). -/
def pyStripWs (s : String) : String :=
  pyStripChars Char.isWhitespace s

/-- Python `s.rstrip(chars)` generalised to a predicate. -/
def pyRstrip (p : Char → Bool) (s : String) : String :=
  ⟨(s.data.reverse.dropWhile p).reverse⟩

/-- Python `s.lower()` (ASCII model). -/
def pyLower (s : String) : String :=
  ⟨s.data.map Char.toLower⟩

/-- Python `s.upper()` (ASCII model). -/
def pyUpper (s : String) : String :=
  ⟨s.data.map Char.toUpper⟩

/-- Python `s.split()` (no argument): split on whitespace runs, no empty
pieces. -/
def splitWhiteAux : List Char → List Char → List (List Char)
  | [], acc => if acc.isEmpty then [] else [acc.reverse]
  | c :: rest, acc =>
    if c.isWhitespace then
      if acc.isEmpty then splitWhiteAux rest []
      else acc.reverse :: splitWhiteAux rest []
    else splitWhiteAux rest (c :: acc)

def pySplitWhite (s : String) : List String :=
  (splitWhiteAux s.data []).map fun l => ⟨l⟩

/-- Python `s.split(sep, 1)` viewed through the honeypots' idiom
`if sep in s: a, b = s.split(sep, 1)`: the pieces before and after the
first occurrence, or `none` when the separator does not occur. -/
def breakAtChar (sep : Char) : List Char → Option (List Char × List Char)
  | [] => none
  | c :: rest =>
    if c = sep then some ([], rest)
    else (breakAtChar sep rest).map fun p => (c :: p.1, p.2)

/-- Python `f"{s:>w}"`: left-pad with spaces to width `w`. -/
def padLeft (s : String) (w : Nat) : String :=
  if w ≤ s.length then s else ⟨List.replicate (w - s.length) ' '⟩ ++ s

/-- Python `f"{s:<w}"`: right-pad with spaces to width `w`. -/
def padRight (s : String) (w : Nat) : String :=
  if w ≤ s.length then s else s ++ ⟨List.replicate (w - s.length) ' '⟩

/-- Python's `<` on strings: lexicographic comparison of code points. -/
def strLtChars : List Char → List Char → Bool
  | [], [] => false
  | [], _ :: _ => true
  | _ :: _, [] => false
  | a :: as, b :: bs =>
    if a.toNat < b.toNat then true
    else if b.toNat < a.toNat then false
    else strLtChars as bs

def pyStrLt (a b : String) : Bool :=
  strLtChars a.data b.data

/-- Python `s.startswith(c)` for a one-character text: first character
comparison. -/
def pyStartsWithChar (c : Char) (s : String) : Bool :=
  match s.data with
  | d :: _ => d = c
  | [] => false

/-! ### Python `int(str)` -/

/-- Python never sees two adjacent underscores in an integer literal. -/
def noDoubleUnderscore : List Char → Bool
  | '_' :: '_' :: _ => false
  | _ :: rest => noDoubleUnderscore rest
  | [] => true

/-- The digit tail of a Python integer literal matches `\d(_?\d)*`:
digit-or-underscore characters, starting and ending with a digit, with
no run of two underscores. -/
def pyDigitsShapeOk (l : List Char) : Bool :=
  l.all (fun c => c.isDigit || c = '_')
    && (match l.head? with
        | some c => c.isDigit
        | none => false)
    && (match l.getLast? with
        | some c => c.isDigit
        | none => false)
    && noDoubleUnderscore l

/-- The value of a digit tail (underscores are grouping only). -/
def pyDigitsVal (l : List Char) : Nat :=
  l.foldl (fun acc c => if c = '_' then acc else acc * 10 + (c.toNat - 48)) 0

/-- Digit tail of a Python integer literal. -/
def pyDigits (l : List Char) : Option Nat :=
  if pyDigitsShapeOk l then some (pyDigitsVal l) else none

/-- Sign handling of `int(s)` after stripping. -/
def pyIntMatch : List Char → Option Int
  | '+' :: rest => (pyDigits rest).map fun n => (n : Int)
  | '-' :: rest => (pyDigits rest).map fun n => -(n : Int)
  | rest => (pyDigits rest).map fun n => (n : Int)

/-- Python `int(s)`: strip whitespace, optional sign, then digits (with
underscores between digits); `none` models `ValueError`. -/
def pyIntParse (s : String) : Option Int :=
  pyIntMatch (pyStripWs s).data

/-! ### `FakeFilesystem.normalize` (filesystem.py) -/

/-- One iteration of the component loop in `FakeFilesystem.normalize`:
`""` and `"."` are dropped, `".."` pops (noop on an empty base), anything
else is appended. -/
def normStep (acc : List String) (part : String) : List String :=
  if part = "" ∨ part = "." then acc
  else if part = ".." then acc.dropLast
  else acc ++ [part]

/-- The base components `normalize` starts from: empty for an absolute
path, else the non-empty pieces of `cwd.strip("/").split("/")`. -/
def normBase (path cwd : String) : List String :=
  if pyStartsWithChar '/' path then []
  else (pySplitChar '/' (pyStripSlash cwd)).filter (fun p => p ≠ "")

/-- `FakeFilesystem.normalize(path, cwd)`. -/
def normalize (path cwd : String) : String :=
  let path := if path = "" then "." else path
  let parts := (pySplitChar '/' path).foldl normStep (normBase path cwd)
  "/" ++ pyJoin '/' parts

/-! ### The virtual filesystem (filesystem.py) -/

/-- The rendered pieces of a node's `modified` timestamp, as consumed by
`format_ls_time`: abbreviated month name, day of month, and `HH:MM` text.
The `datetime` value itself is configuration data the claims never
inspect, so it is modelled by its rendered fields. -/
structure LsStamp where
  month : String
  day : Nat
  time : String
deriving Repr, DecidableEq

/-- The POSIX-style metadata every `Node` carries. -/
structure NodeMeta where
  mode : String
  owner : String
  group : String
  modified : LsStamp
deriving Repr, DecidableEq

/-- A filesystem node: a file (content plus optional explicit size
override) or a directory (children). `name` mirrors `Node.name`; the
root's name is `""`. -/
inductive Node where
  | file (name : String) (meta : NodeMeta) (content : String)
      (sizeOverride : Option Nat) : Node
  | dir (name : String) (meta : NodeMeta) (children : List Node) : Node
deriving Repr

def Node.name : Node → String
  | .file n _ _ _ => n
  | .dir n _ _ => n

def Node.meta : Node → NodeMeta
  | .file _ m _ _ => m
  | .dir _ m _ => m

/-- `Node.is_dir`. -/
def Node.isDir : Node → Bool
  | .file _ _ _ _ => false
  | .dir _ _ _ => true

mutual

/-- `Node.size`: an explicit override, the UTF-8 byte length of the
content, or the recursive sum over a directory's children. -/
def Node.size : Node → Nat
  | .file _ _ content so =>
    match so with
    | some n => n
    | none => content.utf8ByteSize
  | .dir _ _ children => Node.sizeSum children

def Node.sizeSum : List Node → Nat
  | [] => 0
  | n :: rest => Node.size n + Node.sizeSum rest

end

/-- The filesystem error hierarchy: `NodeNotFound` is a subclass of
`FilesystemError`, which matters for `except` clause ordering. `str()` of
a `NodeNotFound` is the missing child's name; `str()` of a plain
`FilesystemError` is its message. -/
inductive FsErr where
  | nodeNotFound (name : String)
  | filesystemError (msg : String)
deriving Repr, DecidableEq

/-- Python `str(exc)` for either exception. -/
def fsErrStr : FsErr → String
  | .nodeNotFound n => n
  | .filesystemError m => m

/-- `Node.child`: look a child up by name; a file has no children
(`FilesystemError`), a missing name raises `NodeNotFound`. -/
def Node.child (node : Node) (childName : String) : Except FsErr Node :=
  match node with
  | .file n _ _ _ => .error (.filesystemError (n ++ " is not a directory"))
  | .dir _ _ children =>
    match children.find? (fun c => c.name = childName) with
    | some c => .ok c
    | none => .error (.nodeNotFound childName)

structure FakeFilesystem where
  root : Node

/-- The component list `resolve` walks: the non-empty pieces of
`normalized.strip("/").split("/")`. -/
def pathParts (normalized : String) : List String :=
  (pySplitChar '/' (pyStripSlash normalized)).filter (fun p => p ≠ "")

/-- `FakeFilesystem.resolve(path, cwd)`: normalize, then walk from the
root one `child` at a time. -/
def FakeFilesystem.resolve (fs : FakeFilesystem) (path cwd : String) :
    Except FsErr Node :=
  let normalized := normalize path cwd
  if normalized = "/" then .ok fs.root
  else (pathParts normalized).foldlM Node.child fs.root

/-- Stable insertion of a node into a name-sorted list: before the first
strictly greater name (so an earlier node precedes later equal names). -/
def insertByName (n : Node) : List Node → List Node
  | [] => [n]
  | m :: rest =>
    if pyStrLt m.name n.name then m :: insertByName n rest
    else n :: m :: rest

/-- Children sorted lexicographically by name, as `sorted(children.items())`
produces (a stable sort; names are unique dictionary keys, so any stable
sort yields the same list). -/
def sortByName : List Node → List Node
  | [] => []
  | n :: rest => insertByName n (sortByName rest)

/-- `FakeFilesystem.list_directory`: sorted children, hidden names
(leading `.`) filtered out unless `include_hidden`. The
`FilesystemError` message uses `node.get_path()`, which for a node
reached by `resolve` equals the normalized path. -/
def FakeFilesystem.listDirectory (fs : FakeFilesystem) (path cwd : String)
    (includeHidden : Bool) : Except FsErr (List Node) :=
  match fs.resolve path cwd with
  | .error e => .error e
  | .ok node =>
    match node with
    | .file _ _ _ _ =>
      .error (.filesystemError (normalize path cwd ++ " is not a directory"))
    | .dir _ _ children =>
      .ok ((sortByName children).filter
        (fun c => includeHidden || !(pyStartsWithChar '.' c.name)))

/-- `to_unix_mode`'s digit table (unknown digits render `rwx`). -/
def modeDigit (c : Char) : String :=
  if c = '0' then "---" else if c = '1' then "--x"
  else if c = '2' then "-w-" else if c = '3' then "-wx"
  else if c = '4' then "r--" else if c = '5' then "r-x"
  else if c = '6' then "rw-" else if c = '7' then "rwx" else "rwx"

/-- `to_unix_mode(prefix, mode)`: the last three characters of the mode,
left-padded with `7` to length 3, each rendered through the table. -/
def toUnixMode (typeText mode : String) : String :=
  let m := mode.data.drop (mode.data.length - 3)
  let m := List.replicate (3 - m.length) '7' ++ m
  typeText ++ String.join (m.map modeDigit)

/-- `format_ls_time`: `f"{month} {day:>2} {HH:MM}"`. -/
def formatLsTime (t : LsStamp) : String :=
  t.month ++ " " ++ padLeft (toString t.day) 2 ++ " " ++ t.time

/-- `FakeFilesystem.describe_node`. -/
def describeNode (node : Node) (detailed : Bool) : String :=
  if !detailed then (if node.name = "" then "/" else node.name)
  else
    let typeText := if node.isDir then "d" else "-"
    toUnixMode typeText node.meta.mode ++ " 1 " ++ node.meta.owner ++ " "
      ++ node.meta.group ++ " " ++ padLeft (toString node.size) 6 ++ " "
      ++ formatLsTime node.meta.modified ++ " "
      ++ (if node.name = "" then "/" else node.name)

/-- `FakeFilesystem.describe_special`: like `describe_node` but with a
synthetic name (`.` or `..`) and type character always `d`. -/
def describeSpecial (node : Node) (detailed : Bool) (label : String) : String :=
  if !detailed then label
  else
    toUnixMode "d" node.meta.mode ++ " 1 " ++ node.meta.owner ++ " "
      ++ node.meta.group ++ " " ++ padLeft (toString node.size) 6 ++ " "
      ++ formatLsTime node.meta.modified ++ " " ++ label

/-- The parent node of a resolved target: the node one component up, or
the target itself at the root (`target.parent if target.parent else
target`, with the parent chain read off the walked path). -/
def FakeFilesystem.parentNode (fs : FakeFilesystem) (normalized : String)
    (target : Node) : Node :=
  if normalized = "/" then target
  else
    match (pathParts normalized).dropLast.foldlM Node.child fs.root with
    | .ok p => p
    | .error _ => target

/-- The line list `FakeFilesystem.format_ls` builds for a directory
target: optional `total` line, optional `.`/`..` entries, then one line
per listed child. A file target yields its single description. -/
def FakeFilesystem.formatLsLines (fs : FakeFilesystem) (path cwd : String)
    (detailed includeHidden : Bool) : Except FsErr (List String) :=
  match fs.resolve path cwd with
  | .error e => .error e
  | .ok target =>
    if target.isDir then
      match fs.listDirectory path cwd includeHidden with
      | .error e => .error e
      | .ok nodes =>
        let l0 : List String :=
          if detailed then
            ["total " ++ toString ((nodes.map
              (fun n => max 1 (n.size / 1024))).foldl (· + ·) 0)]
          else []
        let l1 : List String :=
          if includeHidden then
            l0 ++ [describeSpecial target detailed ".",
                   describeSpecial (fs.parentNode (normalize path cwd) target)
                     detailed ".."]
          else l0
        .ok (l1 ++ nodes.map (fun n => describeNode n detailed))
    else .ok [describeNode target detailed]

/-- `FakeFilesystem.format_ls`: the joined text (`"\n".join(lines)` for a
directory; a file's single description line joins to itself). -/
def FakeFilesystem.formatLs (fs : FakeFilesystem) (path cwd : String)
    (detailed includeHidden : Bool) : Except FsErr String :=
  match fs.formatLsLines path cwd detailed includeHidden with
  | .error e => .error e
  | .ok lines => .ok (String.intercalate "\n" lines)

/-- `FakeFilesystem.read_file`: content of a file, `FilesystemError` for
a directory (message again via `get_path`). -/
def FakeFilesystem.readFile (fs : FakeFilesystem) (path cwd : String) :
    Except FsErr String :=
  match fs.resolve path cwd with
  | .error e => .error e
  | .ok node =>
    match node with
    | .dir _ _ _ =>
      .error (.filesystemError (normalize path cwd ++ " is a directory"))
    | .file _ _ content _ => .ok content

/-- The per-node line of `FakeFilesystem.format_ftp_list`: owner and
group left-padded to width 8, size right-aligned to width 8. -/
def describeFtpNode (node : Node) : String :=
  let typeText := if node.isDir then "d" else "-"
  toUnixMode typeText node.meta.mode ++ " 1 " ++ padRight node.meta.owner 8
    ++ " " ++ padRight node.meta.group 8 ++ " "
    ++ padLeft (toString node.size) 8 ++ " "
    ++ formatLsTime node.meta.modified ++ " " ++ node.name

/-- `FakeFilesystem.format_ftp_list`. -/
def FakeFilesystem.formatFtpList (fs : FakeFilesystem) (path cwd : String) :
    Except FsErr (List String) :=
  match fs.resolve path cwd with
  | .error e => .error e
  | .ok target =>
    if target.isDir then
      match fs.listDirectory path cwd false with
      | .error e => .error e
      | .ok nodes => .ok (nodes.map describeFtpNode)
    else .ok [describeFtpNode target]

/-! ### The shared shell command set (services/ssh.py, services/telnet.py)

In the Python source `NodeNotFound` subclasses `FilesystemError` and the
`except FilesystemError` clause comes first, so it catches `NodeNotFound`
as well: the dedicated `except NodeNotFound` clause below it is
unreachable. The embedding reflects that: every filesystem exception is
rendered through `str(exc)` (`fsErrStr`). -/

/-- `SshService.execute_filesystem_command`: returns the response (or
`none` for an unrecognized command) and the possibly-updated cwd. -/
def sshExecuteFilesystemCommand (fs : FakeFilesystem)
    (command cwd home username : String) : Option String × String :=
  match pySplitWhite command with
  | [] => (some "", cwd)
  | cmd :: args =>
    if cmd = "pwd" then (some cwd, cwd)
    else if cmd = "whoami" then (some username, cwd)
    else if cmd = "cd" then
      let target := args.headD home
      let newCwd := normalize target cwd
      match fs.resolve newCwd "/" with
      | .ok node =>
        if !node.isDir then
          (some ("bash: cd: " ++ target ++ ": Not a directory"), cwd)
        else (some "", newCwd)
      | .error e => (some ("bash: " ++ cmd ++ ": " ++ fsErrStr e), cwd)
    else if cmd = "ls" then
      let detailed := args.any (fun f => f = "-l" || f = "-la" || f = "-al")
      let includeHidden := args.any (fun f => f = "-a" || f = "-la" || f = "-al")
      let target :=
        match args.getLast? with
        | some last => if !pyStartsWithChar (Char.ofNat 45) last then last else "."
        | none => "."
      match fs.formatLs target cwd detailed includeHidden with
      | .ok listing => (some listing, cwd)
      | .error e => (some ("bash: " ++ cmd ++ ": " ++ fsErrStr e), cwd)
    else if cmd = "cat" && !args.isEmpty then
      match fs.readFile (args.headD "") cwd with
      | .ok content => (some content, cwd)
      | .error e => (some ("bash: " ++ cmd ++ ": " ++ fsErrStr e), cwd)
    else (none, cwd)

/-- `TelnetService.execute_filesystem_command`: identical to the SSH
variant except for the error prefixes (no `bash: `). -/
def telnetExecuteFilesystemCommand (fs : FakeFilesystem)
    (command cwd home username : String) : Option String × String :=
  match pySplitWhite command with
  | [] => (some "", cwd)
  | cmd :: args =>
    if cmd = "pwd" then (some cwd, cwd)
    else if cmd = "whoami" then (some username, cwd)
    else if cmd = "cd" then
      let target := args.headD home
      let newCwd := normalize target cwd
      match fs.resolve newCwd "/" with
      | .ok node =>
        if !node.isDir then
          (some ("cd: " ++ target ++ ": Not a directory"), cwd)
        else (some "", newCwd)
      | .error e => (some (cmd ++ ": " ++ fsErrStr e), cwd)
    else if cmd = "ls" then
      let detailed := args.any (fun f => f = "-l" || f = "-la" || f = "-al")
      let includeHidden := args.any (fun f => f = "-a" || f = "-la" || f = "-al")
      let target :=
        match args.getLast? with
        | some last => if !pyStartsWithChar (Char.ofNat 45) last then last else "."
        | none => "."
      match fs.formatLs target cwd detailed includeHidden with
      | .ok listing => (some listing, cwd)
      | .error e => (some (cmd ++ ": " ++ fsErrStr e), cwd)
    else if cmd = "cat" && !args.isEmpty then
      match fs.readFile (args.headD "") cwd with
      | .ok content => (some content, cwd)
      | .error e => (some (cmd ++ ": " ++ fsErrStr e), cwd)
    else (none, cwd)

/-! ### `resolve_home` (identical in ssh.py, telnet.py, ftp.py) -/

/-- `SshService.resolve_home`: without a filesystem the desired path is
kept; otherwise it is normalized and must resolve to a directory, any
failure falling back to `/`. -/
def sshResolveHome (fs : Option FakeFilesystem) (desired : String) : String :=
  match fs with
  | none => desired
  | some f =>
    let resolved := normalize desired "/"
    match f.resolve resolved "/" with
    | .ok node => if node.isDir then resolved else "/"
    | .error _ => "/"

/-- `TelnetService.resolve_home` (same body as the SSH variant). -/
def telnetResolveHome (fs : Option FakeFilesystem) (desired : String) : String :=
  match fs with
  | none => desired
  | some f =>
    let resolved := normalize desired "/"
    match f.resolve resolved "/" with
    | .ok node => if node.isDir then resolved else "/"
    | .error _ => "/"

/-- `FtpService.resolve_home` (same body as the SSH variant). -/
def ftpResolveHome (fs : Option FakeFilesystem) (desired : String) : String :=
  match fs with
  | none => desired
  | some f =>
    let resolved := normalize desired "/"
    match f.resolve resolved "/" with
    | .ok node => if node.isDir then resolved else "/"
    | .error _ => "/"

/-! ### The MySQL service (services/mysql.py) -/

/-- The configuration fields `MysqlService.handle_client` reads for the
command loop, as found in the config (`command_responses` raw, defaults
already substituted for the two strings). -/
structure MysqlConfig where
  commandResponses : List (String × String)
  defaultResponse : String
  farewell : String

/-- The lowered-key response table `{key.lower(): value for ...}`. -/
def mysqlResponses (raw : List (String × String)) : List (String × String) :=
  raw.map (fun kv => (pyLower kv.1, kv.2))

/-- Python `dict` built from a key/value sequence, then `.get(k)`:
later duplicates overwrite, so the last binding wins. -/
def pyDictGet (l : List (String × String)) (k : String) : Option String :=
  ((l.filter (fun kv => kv.1 = k)).getLast?).map (fun kv => kv.2)

/-- What one iteration of the MySQL command loop does with a received
line: the bytes written (after the prompt) and whether the connection is
then closed. -/
structure MysqlLineResult where
  written : String
  closed : Bool
deriving Repr, DecidableEq

/-- One iteration of the `MysqlService.handle_client` loop on a decoded
line: strip; empty lines only re-prompt; otherwise the lowered command is
looked up in `command_responses` first, and only on a miss do `quit`/`exit`
close the session with the farewell, everything else getting
`default_response`. -/
def mysqlHandleLine (cfg : MysqlConfig) (rawLine : String) : MysqlLineResult :=
  let command := pyStripWs rawLine
  if command = "" then ⟨"", false⟩
  else
    let lowerCommand := pyLower command
    match pyDictGet (mysqlResponses cfg.commandResponses) lowerCommand with
    | some response => ⟨response ++ "\n", false⟩
    | none =>
      if lowerCommand = "quit" || lowerCommand = "exit" then
        ⟨cfg.farewell ++ "\n", true⟩
      else ⟨cfg.defaultResponse ++ "\n", false⟩

/-! ### The HTTP service (services/http.py) -/

/-- An HTTP route declaration (`routes[]` / `not_found` entries). -/
structure HttpRoute where
  method : Option String
  path : Option String
  status : Option Int
  body : Option String
  bodyFile : Option String
  responseHeaders : List (String × String)

/-- The service state `HttpService.__init__` derives from the config
(defaults for `server_header`, `default_status` etc. already applied,
as the constructor does). -/
structure HttpServiceState where
  serverHeader : String
  defaultStatus : Int
  defaultHeaders : List (String × String)
  routes : List HttpRoute
  notFound : Option HttpRoute

/-- `HttpService.STATUS_TEXT.get(status, "Unknown")`. -/
def statusText (code : Int) : String :=
  if code = 200 then "OK" else if code = 201 then "Created"
  else if code = 202 then "Accepted" else if code = 204 then "No Content"
  else if code = 301 then "Moved Permanently" else if code = 302 then "Found"
  else if code = 400 then "Bad Request" else if code = 401 then "Unauthorized"
  else if code = 403 then "Forbidden" else if code = 404 then "Not Found"
  else if code = 405 then "Method Not Allowed"
  else if code = 500 then "Internal Server Error"
  else if code = 502 then "Bad Gateway"
  else if code = 503 then "Service Unavailable" else "Unknown"

/-- Python `dict` assignment `d[k] = v`: update in place if the key
exists, else append. -/
def dictSet (l : List (String × String)) (k v : String) :
    List (String × String) :=
  if l.any (fun kv => kv.1 = k) then
    l.map (fun kv => if kv.1 = k then (k, v) else kv)
  else l ++ [(k, v)]

/-- Python `d.setdefault(k, v)`. -/
def dictSetdefault (l : List (String × String)) (k v : String) :
    List (String × String) :=
  if l.any (fun kv => kv.1 = k) then l else l ++ [(k, v)]

/-- Python `{**a, **b}`. -/
def dictMerge (a b : List (String × String)) : List (String × String) :=
  b.foldl (fun acc kv => dictSet acc kv.1 kv.2) a

/-- Python `d.get(k)` on a well-formed dict (unique keys). -/
def dictGet (l : List (String × String)) (k : String) : Option String :=
  (l.find? (fun kv => kv.1 = k)).map (fun kv => kv.2)

/-- `HttpService.match_route`: first route whose method (default `GET`,
compared upper-cased) and declared path match. -/
def matchRoute (routes : List HttpRoute) (method path : String) :
    Option HttpRoute :=
  routes.find? (fun r =>
    (pyUpper (r.method.getD "GET") == pyUpper method) && (r.path == some path))

/-- `HttpService.resolve_body`: a literal `body`, the content of
`body_file` (file reads modelled by the `fileRead` oracle), or empty;
paired with its UTF-8 byte length. -/
def resolveBody (fileRead : String → String) (r : HttpRoute) : String × Nat :=
  match r.body with
  | some b => (b, b.utf8ByteSize)
  | none =>
    match r.bodyFile with
    | some f => ((fileRead f), (fileRead f).utf8ByteSize)
    | none => ("", 0)

/-- The three components `HttpService.build_response` computes before
serialization: status line, final header dict, body text. -/
structure HttpResponseParts where
  statusLine : String
  headers : List (String × String)
  body : String

/-- `HttpService.build_response` up to serialization: pick status, body
and base headers from the route, the `not_found` route, or the generated
`<status> <reason>` body; then apply the `setdefault`/override chain.
`Date` is a real-time string, passed in as `date`. -/
def buildResponseParts (svc : HttpServiceState) (fileRead : String → String)
    (route : Option HttpRoute) (version date : String) : HttpResponseParts :=
  let sbh :=
    match route with
    | some r =>
      let st := r.status.getD svc.defaultStatus
      let bl := resolveBody fileRead r
      (st, bl.1, bl.2, dictMerge svc.defaultHeaders r.responseHeaders)
    | none =>
      match svc.notFound with
      | none =>
        let st := svc.defaultStatus
        let b := toString st ++ " " ++ statusText st ++ "\n"
        (st, b, b.utf8ByteSize, svc.defaultHeaders)
      | some nf =>
        let bl := resolveBody fileRead nf
        (svc.defaultStatus, bl.1, bl.2,
          dictMerge svc.defaultHeaders nf.responseHeaders)
  match sbh with
  | (status, bodyContent, length, headers0) =>
    let headers1 := dictSetdefault headers0 "Content-Type" "text/html; charset=utf-8"
    let headers2 := dictSetdefault headers1 "Connection" "close"
    let headers3 := dictSet headers2 "Server" svc.serverHeader
    let headers4 := dictSet headers3 "Date" date
    let headers5 := dictSet headers4 "Content-Length" (toString length)
    ⟨version ++ " " ++ toString status ++ " " ++ statusText status ++ "\r\n",
     headers5, bodyContent⟩

/-- The serialized response `build_response` returns: status line, one
`k: v` line per header, a blank line, then the body. -/
def buildResponse (svc : HttpServiceState) (fileRead : String → String)
    (route : Option HttpRoute) (version date : String) : String :=
  let p := buildResponseParts svc fileRead route version date
  p.statusLine
    ++ String.join (p.headers.map (fun kv => kv.1 ++ ": " ++ kv.2 ++ "\r\n"))
    ++ "\r\n" ++ p.body

/-! ### The FTP service (services/ftp.py)

`handle_client` is a per-line loop over mutable session variables; it is
embedded as a step function from session state and one received line to
the new state, the control-connection replies, the data-channel payload
(if any) and a closed flag. The asynchronous parts — whether a passive
data client connects within the 10 s budget, whether an active-mode
outbound connect or a passive-mode send succeeds, and which address the
passive listener binds — are inputs, collected in `FtpEnv`. -/

/-- Python `str.splitlines()` (the `\n`, `\r\n`, `\r` terminators). -/
def splitLinesAux : List Char → List Char → List (List Char)
  | [], acc => if acc.isEmpty then [] else [acc.reverse]
  | '\r' :: '\n' :: rest, acc => acc.reverse :: splitLinesAux rest []
  | '\n' :: rest, acc => acc.reverse :: splitLinesAux rest []
  | '\r' :: rest, acc => acc.reverse :: splitLinesAux rest []
  | c :: rest, acc => splitLinesAux rest (c :: acc)

def pySplitLines (s : String) : List String :=
  (splitLinesAux s.data []).map fun l => ⟨l⟩

/-- One user record of the FTP `users` config. -/
structure FtpUser where
  passwords : List String
  userPrompt : Option String
  welcome : Option String
  home : Option String

/-- A `command_responses` value: a plain string or a list of lines. -/
inductive ConfigResp where
  | str (s : String)
  | list (l : List String)

/-- The configuration fields `FtpService` reads. -/
structure FtpConfig where
  users : List (String × FtpUser)
  defaultHome : Option String
  systResponse : Option String
  features : Option (List String)
  listing : Option (List String)
  commandResponses : List (String × ConfigResp)

/-- The mutable per-connection session variables of `handle_client`.
`passivePending` models `passive_server`/`passive_future` being set
(they are always set and cleared together). -/
structure FtpState where
  username : Option String
  authed : Bool
  cwd : String
  home : String
  activeTarget : Option (String × Int)
  passivePending : Bool
deriving Repr

/-- The asynchronous environment of one step. -/
structure FtpEnv where
  pasvArrives : Bool
  activeConnectOk : Bool
  passiveSendOk : Bool
  pasvBoundHost : String
  pasvBoundPort : Nat
  ctrlSockname : String

inductive DataMode where
  | active
  | passive
deriving Repr, DecidableEq

/-- What one loop iteration produced: the new session state, the lines
written to the control connection, the lines sent over the data channel
(when a transfer happened), and whether the session ended. -/
structure FtpStepResult where
  state : FtpState
  ctrl : List String
  dataSent : Option (List String)
  closed : Bool
deriving Repr

/-- `line.decode().rstrip("\r\n")` then `split(" ", 1)`: the command word
and its argument. -/
def parseFtpLine (rawLine : String) : String × String :=
  let decoded := pyRstrip (fun c => c = '\r' || c = '\n') rawLine
  match breakAtChar ' ' decoded.data with
  | some p => (⟨p.1⟩, ⟨p.2⟩)
  | none => (decoded, "")

/-- The PASS credential check:
`username in users and password in users[username].get("passwords", [])`. -/
def ftpPassSuccess (users : List (String × FtpUser)) (username : Option String)
    (password : String) : Bool :=
  match username.bind (fun n => (users.find? (fun u => u.1 = n)).map (fun u => u.2)) with
  | some u => u.passwords.contains password
  | none => false

/-- `users.get(username)` for an optional username. -/
def ftpLookupUser (users : List (String × FtpUser)) (username : Option String) :
    Option FtpUser :=
  username.bind (fun n => (users.find? (fun u => u.1 = n)).map (fun u => u.2))

/-- `0 <= int(part) <= 255`, with `ValueError` making the whole
`all(...)` in `_test_active_address` return `False`. -/
def inByteRange (p : String) : Bool :=
  match pyIntParse p with
  | some n => decide (0 ≤ n ∧ n ≤ 255)
  | none => false

/-- `FtpService._test_active_address`: the port must lie in
`(0, 65535]` and the host must re-split into four dotted parts that each
parse as integers in `0..255`. -/
def testActiveAddress (host : String) (port : Int) : Bool :=
  if port ≤ 0 || port > 65535 then false
  else
    let parts := pySplitChar '.' host
    if parts.length ≠ 4 then false
    else parts.all inByteRange

/-- `FtpService._prepare_data_channel`: an active target wins; else a
pending passive listener is awaited (a timeout writes
`425 Passive data connection timed out.` on the control connection and
yields no channel); else no channel and nothing written. -/
def prepareDataChannel (activeTarget : Option (String × Int))
    (passivePending arrives : Bool) : List String × Option DataMode :=
  match activeTarget with
  | some _ => ([], some .active)
  | none =>
    if passivePending then
      if arrives then ([], some .passive)
      else (["425 Passive data connection timed out."], none)
    else ([], none)

/-- The post-transfer cleanup after LIST/NLST/RETR: an active target is
one-shot, a passive listener is closed. -/
def consumeChannel (s : FtpState) (mode : DataMode) : FtpState :=
  match mode with
  | .active => { s with activeTarget := none }
  | .passive => { s with passivePending := false }

/-- `command_responses.get(cmd)` (dict: last binding wins). -/
def ftpRespGet (l : List (String × ConfigResp)) (k : String) : Option ConfigResp :=
  ((l.filter (fun kv => kv.1 = k)).getLast?).map (fun kv => kv.2)

/-- The LIST/NLST/XNLST and RETR tail of the loop body, after a data
channel was acquired (`writes` are the control lines the acquisition
already produced). -/
def ftpListWithChannel (cfg : FtpConfig) (fs : Option FakeFilesystem)
    (env : FtpEnv) (s : FtpState) (cu arg : String) (writes : List String)
    (mode : DataMode) : FtpStepResult :=
  let targetPath := if arg = "" then "." else arg
  let listingE : Except FsErr (List String) :=
    match fs with
    | some f => f.formatFtpList targetPath s.cwd
    | none => .ok (cfg.listing.getD
        ["-rw-r--r--    1 ftp      ftp          531 Jan 01 12:00 README",
         "drwxr-xr-x    2 ftp      ftp         4096 Jan 01 12:00 pub"])
  match listingE with
  | .error _ =>
    ⟨consumeChannel s mode, writes ++ ["550 Failed to list directory."], none, false⟩
  | .ok listing =>
    let payload :=
      if cu = "NLST" || cu = "XNLST" then
        listing.map (fun line => (pySplitWhite line).getLastD "")
      else listing
    let ok := match mode with
      | .active => env.activeConnectOk
      | .passive => env.passiveSendOk
    ⟨consumeChannel s mode,
     writes ++ ["150 Opening data connection."]
       ++ [if ok then "226 Transfer complete."
           else "425 Could not establish connection."],
     if ok then some payload else none, false⟩

/-- The RETR tail after a data channel was acquired. The
`if not filesystem` and `if not arg` replies `continue` before the
cleanup lines, so they leave the channel state untouched. -/
def ftpRetrWithChannel (fs : Option FakeFilesystem) (env : FtpEnv)
    (s : FtpState) (arg : String) (writes : List String) (mode : DataMode) :
    FtpStepResult :=
  match fs with
  | none => ⟨s, writes ++ ["550 File unavailable."], none, false⟩
  | some f =>
    if arg = "" then ⟨s, writes ++ ["501 Missing filename."], none, false⟩
    else
      match f.readFile arg s.cwd with
      | .ok content =>
        let ok := match mode with
          | .active => env.activeConnectOk
          | .passive => env.passiveSendOk
        ⟨consumeChannel s mode,
         writes ++ ["150 Opening data connection."]
           ++ [if ok then "226 Transfer complete."
               else "425 Could not establish connection."],
         if ok then some (pySplitLines content) else none, false⟩
      | .error (.nodeNotFound _) =>
        ⟨consumeChannel s mode, writes ++ ["550 File not found."], none, false⟩
      | .error (.filesystemError _) =>
        ⟨consumeChannel s mode, writes ++ ["550 File unavailable."], none, false⟩

/-- The USER branch of the loop body. -/
def ftpUserBranch (cfg : FtpConfig) (s : FtpState) (arg : String) :
    FtpStepResult :=
  let prompt := ((ftpLookupUser cfg.users (some arg)).bind
    (fun u => u.userPrompt)).getD "Please specify the password."
  ⟨{ s with username := some arg }, ["331 " ++ prompt], none, false⟩

/-- The PASS branch: evaluate credentials, log, and on success (with a
truthy username — Python's `if success and username:`) greet, move to
the resolved home, and drop any data-channel state. -/
def ftpPassBranch (cfg : FtpConfig) (fs : Option FakeFilesystem)
    (s : FtpState) (arg : String) : FtpStepResult :=
  let success := ftpPassSuccess cfg.users s.username arg
  let usernameTruthy := match s.username with
    | some u => u ≠ ""
    | none => false
  if success && usernameTruthy then
    let u := (ftpLookupUser cfg.users s.username).getD ⟨[], none, none, none⟩
    let welcome := u.welcome.getD "230 Login successful."
    let home := ftpResolveHome fs (u.home.getD (cfg.defaultHome.getD "/"))
    ⟨{ s with
        authed := true
        home := home
        cwd := home
        activeTarget := none
        passivePending := false },
     [welcome], none, false⟩
  else
    ⟨{ s with authed := false }, ["530 Login incorrect."], none, false⟩

/-- The TYPE branch. -/
def ftpTypeBranch (s : FtpState) (arg : String) : FtpStepResult :=
  let mode := if arg ≠ "" then pyUpper arg else "I"
  if mode = "I" || mode = "A" then
    ⟨s, ["200 Switching to Binary mode."], none, false⟩
  else ⟨s, ["504 Command not implemented for that parameter."], none, false⟩

/-- The PORT branch. -/
def ftpPortBranch (s : FtpState) (arg : String) : FtpStepResult :=
  let parts := pySplitChar ',' arg
  if parts.length = 6 then
    let host := pyJoin '.' (parts.take 4)
    let port : Int :=
      match pyIntParse (parts.getD 4 ""), pyIntParse (parts.getD 5 "") with
      | some a, some b => a * 256 + b
      | _, _ => 0
    if testActiveAddress host port then
      ⟨{ s with
          activeTarget := some (host, port)
          passivePending := false },
       ["200 PORT command successful."], none, false⟩
    else ⟨s, ["501 Syntax error in parameters or arguments."], none, false⟩
  else ⟨s, ["501 Syntax error in parameters or arguments."], none, false⟩

/-- The PASV branch: rebind the passive listener and announce its
address. -/
def ftpPasvBranch (env : FtpEnv) (s : FtpState) : FtpStepResult :=
  let pasvHost :=
    if env.pasvBoundHost = "0.0.0.0" then
      (if env.ctrlSockname ≠ "" then env.ctrlSockname else "127.0.0.1")
    else env.pasvBoundHost
  match pySplitChar '.' pasvHost with
  | [h1, h2, h3, h4] =>
    ⟨{ s with passivePending := true },
     ["227 Entering Passive Mode (" ++ h1 ++ "," ++ h2 ++ "," ++ h3 ++ ","
       ++ h4 ++ "," ++ toString (env.pasvBoundPort / 256) ++ ","
       ++ toString (env.pasvBoundPort % 256) ++ ")."], none, false⟩
  | _ =>
    -- the tuple unpacking of `pasv_host.split(".")` raises, which the
    -- outer handler turns into an `error` event and a closed session
    ⟨s, [], none, true⟩

/-- The CWD branch. -/
def ftpCwdBranch (fs : Option FakeFilesystem) (s : FtpState) (arg : String) :
    FtpStepResult :=
  let target := if arg ≠ "" then arg else s.home
  match fs with
  | none =>
    ⟨{ s with cwd := target }, ["250 Directory successfully changed."], none, false⟩
  | some f =>
    let newDir := normalize target s.cwd
    match f.resolve newDir "/" with
    | .ok node =>
      if !node.isDir then
        ⟨s, ["550 Failed to change directory."], none, false⟩
      else ⟨{ s with cwd := newDir }, ["250 Directory successfully changed."], none, false⟩
    | .error _ => ⟨s, ["550 Failed to change directory."], none, false⟩

/-- The LIST/NLST/XNLST branch: acquire a data channel (a `none` channel
falls through to `425 Use PORT or PASV first.`), then transfer. -/
def ftpListBranch (cfg : FtpConfig) (fs : Option FakeFilesystem)
    (env : FtpEnv) (s : FtpState) (cu arg : String) : FtpStepResult :=
  match prepareDataChannel s.activeTarget s.passivePending env.pasvArrives with
  | (writes, none) =>
    ⟨s, writes ++ ["425 Use PORT or PASV first."], none, false⟩
  | (writes, some mode) => ftpListWithChannel cfg fs env s cu arg writes mode

/-- The RETR branch. -/
def ftpRetrBranch (fs : Option FakeFilesystem) (env : FtpEnv) (s : FtpState)
    (arg : String) : FtpStepResult :=
  match prepareDataChannel s.activeTarget s.passivePending env.pasvArrives with
  | (writes, none) =>
    ⟨s, writes ++ ["425 Use PORT or PASV first."], none, false⟩
  | (writes, some mode) => ftpRetrWithChannel fs env s arg writes mode

/-- The `command_responses` fallback branch. -/
def ftpDefaultBranch (cfg : FtpConfig) (s : FtpState) (cu : String) :
    FtpStepResult :=
  match ftpRespGet cfg.commandResponses cu with
  | some (.list l) => ⟨s, l, none, false⟩
  | some (.str r) => ⟨s, [r], none, false⟩
  | none => ⟨s, ["502 Command not implemented."], none, false⟩

/-- One iteration of the `FtpService.handle_client` loop on one received
line, mirroring the source's dispatch order (USER, PASS, the
authentication gate, SYST, PWD/XPWD, TYPE, FEAT, PORT, PASV, CWD,
LIST/NLST/XNLST, RETR, NOOP, QUIT, `command_responses` fallback). -/
def ftpStep (cfg : FtpConfig) (fs : Option FakeFilesystem) (env : FtpEnv)
    (s : FtpState) (rawLine : String) : FtpStepResult :=
  let ca := parseFtpLine rawLine
  let cu := pyUpper ca.1
  let arg := ca.2
  if cu = "USER" then ftpUserBranch cfg s arg
  else if cu = "PASS" then ftpPassBranch cfg fs s arg
  else if !s.authed && !(cu = "USER" || cu = "PASS" || cu = "QUIT" || cu = "NOOP") then
    ⟨s, ["530 Please login with USER and PASS."], none, false⟩
  else if cu = "SYST" then
    ⟨s, [cfg.systResponse.getD "215 UNIX Type: L8"], none, false⟩
  else if cu = "PWD" || cu = "XPWD" then
    ⟨s, ["257 \"" ++ s.cwd ++ "\" is the current directory"], none, false⟩
  else if cu = "TYPE" then ftpTypeBranch s arg
  else if cu = "FEAT" then
    ⟨s, cfg.features.getD ["211-Features:", " UTF8", " SIZE", "211 End"], none, false⟩
  else if cu = "PORT" then ftpPortBranch s arg
  else if cu = "PASV" then ftpPasvBranch env s
  else if cu = "CWD" then ftpCwdBranch fs s arg
  else if cu = "LIST" || cu = "NLST" || cu = "XNLST" then
    ftpListBranch cfg fs env s cu arg
  else if cu = "RETR" then ftpRetrBranch fs env s arg
  else if cu = "NOOP" then
    ⟨s, ["200 NOOP ok."], none, false⟩
  else if cu = "QUIT" then
    ⟨s, ["221 Goodbye."], none, true⟩
  else ftpDefaultBranch cfg s cu

/-! ### The event logger (base.py `log_event`, utils.py)

`log_event` builds `{"ts": ..., "service": ..., "event": ..., **details}`
and appends `json.dumps(payload, ensure_ascii=False) + "\n"` to the log
file. JSON values occurring in events are strings, booleans, integers or
`None`. -/

/-- A JSON value as passed to `json.dumps` by the services. -/
inductive JVal where
  | str (s : String)
  | bool (b : Bool)
  | num (n : Int)
  | null
deriving Repr

/-- Python `dict` assignment for JSON objects. -/
def jdictSet (l : List (String × JVal)) (k : String) (v : JVal) :
    List (String × JVal) :=
  if l.any (fun kv => kv.1 = k) then
    l.map (fun kv => if kv.1 = k then (k, v) else kv)
  else l ++ [(k, v)]

/-- Python `{**a, **b}` for JSON objects. -/
def jdictMerge (a b : List (String × JVal)) : List (String × JVal) :=
  b.foldl (fun acc kv => jdictSet acc kv.1 kv.2) a

/-- `BaseService.log_event`: the payload dict, fixed keys first. -/
def logEventPayload (service ts event : String)
    (details : List (String × JVal)) : List (String × JVal) :=
  jdictMerge [("ts", .str ts), ("service", .str service), ("event", .str event)]
    details

/-- Lower-case hexadecimal digit, as in Python's `\uXXXX` escapes. -/
def hexDigit (n : Nat) : Char :=
  if n < 10 then Char.ofNat (48 + n) else Char.ofNat (87 + n)

/-- How `json.dumps` renders one character inside a string literal
(`ensure_ascii=False`): the two-character escapes for quote, backslash
and the common control characters, `\u00XX` for the remaining control
characters, everything else verbatim. -/
def jsonEscapeChar (c : Char) : List Char :=
  if c = '"' then ['\\', '"']
  else if c = '\\' then ['\\', '\\']
  else if c = '\n' then ['\\', 'n']
  else if c = '\r' then ['\\', 'r']
  else if c = '\t' then ['\\', 't']
  else if c = Char.ofNat 8 then ['\\', 'b']
  else if c = Char.ofNat 12 then ['\\', 'f']
  else if c.toNat < 32 then
    ['\\', 'u', '0', '0', hexDigit (c.toNat / 16), hexDigit (c.toNat % 16)]
  else [c]

def jsonEscape (s : String) : List Char :=
  s.data.flatMap jsonEscapeChar

/-- Decimal digits of a natural number, least significant first. -/
def natDigitsRev (n : Nat) : List Char :=
  if h : n < 10 then [Char.ofNat (48 + n)]
  else Char.ofNat (48 + n % 10) :: natDigitsRev (n / 10)
decreasing_by exact Nat.div_lt_self (by omega) (by omega)

/-- Decimal rendering of an integer, as `json.dumps` prints it. -/
def intRepr (n : Int) : List Char :=
  if n < 0 then '-' :: (natDigitsRev n.natAbs).reverse
  else (natDigitsRev n.natAbs).reverse

/-- `json.dumps` of one value. -/
def jvalDump : JVal → List Char
  | .str s => '"' :: jsonEscape s ++ ['"']
  | .bool b => if b then "true".data else "false".data
  | .num n => intRepr n
  | .null => "null".data

/-- `", ".join`-style joining used below. -/
def joinWithSep (sep : List Char) : List (List Char) → List Char
  | [] => []
  | [x] => x
  | x :: rest => x ++ sep ++ joinWithSep sep rest

/-- `json.dumps(obj, ensure_ascii=False)` for an object: brace-wrapped,
`", "`-separated `"key": value` items. -/
def jsonDumps (obj : List (String × JVal)) : String :=
  ⟨'\x7b' :: joinWithSep (", ".data)
      (obj.map (fun kv =>
        '"' :: jsonEscape kv.1 ++ ['"', ':', ' '] ++ jvalDump kv.2))
    ++ ['\x7d']⟩

/-- The line `log_event` appends to the log file. -/
def logEventLine (service ts event : String)
    (details : List (String × JVal)) : String :=
  jsonDumps (logEventPayload service ts event details) ++ "\n"

/-- The `login_attempt` details logged by `FtpService.handle_client` on
PASS (the username is still `None` if no USER was sent). -/
def ftpLoginAttemptDetails (client : String) (username : Option String)
    (password : String) (success : Bool) : List (String × JVal) :=
  [("client", .str client), ("protocol", .str "ftp"),
   ("username", match username with
                | some u => .str u
                | none => .null),
   ("password", .str password), ("success", .bool success)]

/-- The `login_attempt` details logged by
`HoneySSHServer.validate_password`. -/
def sshLoginAttemptDetails (client username password : String)
    (success : Bool) : List (String × JVal) :=
  [("client", .str client), ("protocol", .str "ssh"),
   ("username", .str username), ("password", .str password),
   ("success", .bool success)]

/-- The `login_attempt` details logged by `TelnetService.handle_client`. -/
def telnetLoginAttemptDetails (client username password : String)
    (success : Bool) : List (String × JVal) :=
  [("client", .str client), ("protocol", .str "telnet"),
   ("username", .str username), ("password", .str password),
   ("success", .bool success)]

/-! ## Lemmas about splitting and joining -/

theorem splitCharList_ne_nil (sep : Char) (l : List Char) :
    splitCharList sep l ≠ [] := by
  induction l with
  | nil => simp [splitCharList]
  | cons c rest ih =>
    by_cases h : c = sep
    · simp [splitCharList, h]
    · simp only [splitCharList, if_neg h]
      rcases hs : splitCharList sep rest with _ | ⟨s, ss⟩ <;> simp

theorem splitCharList_append (sep : Char) (a b : List Char) :
    splitCharList sep (a ++ sep :: b) =
      splitCharList sep a ++ splitCharList sep b := by
  induction a with
  | nil => simp [splitCharList]
  | cons c a ih =>
    by_cases h : c = sep
    · subst h
      simp [splitCharList, ih]
    · simp only [List.cons_append, splitCharList, if_neg h, List.append_eq]
      rw [ih]
      rcases hs : splitCharList sep a with _ | ⟨s, ss⟩
      · exact absurd hs (splitCharList_ne_nil sep a)
      · simp

theorem not_mem_of_mem_splitCharList (sep : Char) (l : List Char) :
    ∀ p ∈ splitCharList sep l, sep ∉ p := by
  induction l with
  | nil =>
    intro p hp
    simp [splitCharList] at hp
    simp [hp]
  | cons c rest ih =>
    intro p hp
    by_cases h : c = sep
    · subst h
      simp [splitCharList] at hp
      rcases hp with hp | hp
      · simp [hp]
      · exact ih p hp
    · simp only [splitCharList, if_neg h] at hp
      rcases hs : splitCharList sep rest with _ | ⟨s, ss⟩
      · exact absurd hs (splitCharList_ne_nil sep rest)
      · rw [hs] at hp
        simp at hp
        rcases hp with hp | hp
        · subst hp
          intro hmem
          rcases List.mem_cons.mp hmem with h1 | h1
          · exact h h1.symm
          · exact ih s (hs ▸ List.mem_cons_self s ss) h1
        · exact ih p (hs ▸ List.mem_cons_of_mem s hp)

theorem splitCharList_eq_single (sep : Char) (l : List Char) (h : sep ∉ l) :
    splitCharList sep l = [l] := by
  induction l with
  | nil => rfl
  | cons c rest ih =>
    have hc : ¬ c = sep := fun hh => h (hh ▸ List.mem_cons_self c rest)
    simp only [splitCharList, if_neg hc]
    rw [ih (fun hm => h (List.mem_cons_of_mem c hm))]

theorem joinCharList_cons_cons (sep : Char) (p q : List Char)
    (qs : List (List Char)) :
    joinCharList sep (p :: q :: qs) = p ++ sep :: joinCharList sep (q :: qs) :=
  rfl

theorem splitCharList_joinCharList (sep : Char) :
    ∀ ps : List (List Char), ps ≠ [] → (∀ p ∈ ps, sep ∉ p) →
      splitCharList sep (joinCharList sep ps) = ps := by
  intro ps
  induction ps with
  | nil => intro h; exact absurd rfl h
  | cons p ps ih =>
    intro _ hmem
    cases ps with
    | nil =>
      simpa [joinCharList] using splitCharList_eq_single sep p (hmem p (by simp))
    | cons q qs =>
      rw [joinCharList_cons_cons, splitCharList_append,
        splitCharList_eq_single sep p (hmem p (by simp)),
        ih (by simp) (fun r hr => hmem r (List.mem_cons_of_mem p hr))]
      rfl

theorem length_splitCharList (sep : Char) (l : List Char) :
    (splitCharList sep l).length = l.count sep + 1 := by
  induction l with
  | nil => simp [splitCharList]
  | cons c rest ih =>
    by_cases h : c = sep
    · subst h
      simp [splitCharList, ih, List.count_cons]
    · simp only [splitCharList, if_neg h]
      rcases hs : splitCharList sep rest with _ | ⟨s, ss⟩
      · exact absurd hs (splitCharList_ne_nil sep rest)
      · rw [hs] at ih
        simpa [List.count_cons, h, Ne.symm] using ih

theorem count_joinCharList (sep : Char) :
    ∀ ps : List (List Char), ps ≠ [] →
      (joinCharList sep ps).count sep
        = (ps.map (fun p => p.count sep)).sum + (ps.length - 1) := by
  intro ps
  induction ps with
  | nil => intro h; exact absurd rfl h
  | cons p ps ih =>
    intro _
    cases ps with
    | nil => simp [joinCharList]
    | cons q qs =>
      rw [joinCharList_cons_cons, List.count_append, List.count_cons,
        ih (by simp)]
      simp [List.length_cons]
      omega

theorem string_mk_data (s : String) : (⟨s.data⟩ : String) = s := by
  cases s
  rfl

theorem string_data_append (a b : String) : (a ++ b).data = a.data ++ b.data :=
  rfl

theorem mem_pySplitChar_no_sep (sep : Char) (s p : String)
    (hp : p ∈ pySplitChar sep s) : sep ∉ p.data := by
  unfold pySplitChar at hp
  rcases List.mem_map.mp hp with ⟨l, hl, rfl⟩
  exact not_mem_of_mem_splitCharList sep s.data l hl

theorem pySplitChar_pyJoin (sep : Char) (parts : List String)
    (hne : parts ≠ []) (h : ∀ p ∈ parts, sep ∉ p.data) :
    pySplitChar sep (pyJoin sep parts) = parts := by
  unfold pySplitChar pyJoin
  have hd : (⟨joinCharList sep (parts.map String.data)⟩ : String).data
      = joinCharList sep (parts.map String.data) := rfl
  rw [hd, splitCharList_joinCharList sep (parts.map String.data)
    (by simpa using hne)
    (by
      intro l hl
      rcases List.mem_map.mp hl with ⟨p, hp, rfl⟩
      exact h p hp)]
  have hcomp : ((fun l => (⟨l⟩ : String)) ∘ String.data) = id := by
    funext p
    exact string_mk_data p
  rw [List.map_map, hcomp, List.map_id]

/-! ## C4: idempotence of `normalize` -/

/-- A path component that `normalize` can emit: non-empty, not `.` or
`..`, and slash-free. -/
def GoodPart (p : String) : Prop :=
  p ≠ "" ∧ p ≠ "." ∧ p ≠ ".." ∧ '/' ∉ p.data

theorem normStep_good (acc : List String) (part : String)
    (hacc : ∀ x ∈ acc, GoodPart x) (hp : '/' ∉ part.data) :
    ∀ x ∈ normStep acc part, GoodPart x := by
  intro x hx
  unfold normStep at hx
  by_cases h1 : part = "" ∨ part = "."
  · rw [if_pos h1] at hx
    exact hacc x hx
  · rw [if_neg h1] at hx
    by_cases h2 : part = ".."
    · rw [if_pos h2] at hx
      exact hacc x ((List.dropLast_sublist acc).subset hx)
    · rw [if_neg h2] at hx
      rcases List.mem_append.mp hx with hx | hx
      · exact hacc x hx
      · have hxp : x = part := by simpa using hx
        subst hxp
        exact ⟨fun he => h1 (Or.inl he), fun he => h1 (Or.inr he), h2, hp⟩

theorem foldl_normStep_good (parts : List String) :
    ∀ acc, (∀ x ∈ acc, GoodPart x) → (∀ p ∈ parts, '/' ∉ p.data) →
      ∀ x ∈ parts.foldl normStep acc, GoodPart x := by
  induction parts with
  | nil =>
    intro acc hacc _
    simpa using hacc
  | cons p ps ih =>
    intro acc hacc hparts
    simp only [List.foldl_cons]
    exact ih _ (normStep_good acc p hacc (hparts p (by simp)))
      (fun q hq => hparts q (List.mem_cons_of_mem p hq))

theorem foldl_normStep_of_good (parts : List String)
    (h : ∀ p ∈ parts, GoodPart p) :
    ∀ acc, parts.foldl normStep acc = acc ++ parts := by
  induction parts with
  | nil => simp
  | cons p ps ih =>
    intro acc
    have hg := h p (by simp)
    have hstep : normStep acc p = acc ++ [p] := by
      unfold normStep
      rw [if_neg (by
        intro hor
        rcases hor with hor | hor
        · exact hg.1 hor
        · exact hg.2.1 hor), if_neg hg.2.2.1]
    simp only [List.foldl_cons, hstep,
      ih (fun q hq => h q (List.mem_cons_of_mem p hq))]
    simp

/-- The component list whose slash-join `normalize` returns. -/
def normParts (path cwd : String) : List String :=
  let path := if path = "" then "." else path
  (pySplitChar '/' path).foldl normStep (normBase path cwd)

theorem normalize_eq_join (path cwd : String) :
    normalize path cwd = "/" ++ pyJoin '/' (normParts path cwd) := rfl

theorem normParts_good (path cwd : String)
    (hcwd : ∀ p ∈ pySplitChar '/' (pyStripSlash cwd), p ≠ "." ∧ p ≠ "..") :
    ∀ x ∈ normParts path cwd, GoodPart x := by
  apply foldl_normStep_good
  · intro x hx
    unfold normBase at hx
    by_cases hs : pyStartsWithChar '/' (if path = "" then "." else path) = true
    · rw [if_pos hs] at hx
      simp at hx
    · rw [if_neg hs] at hx
      rcases List.mem_filter.mp hx with ⟨hmem, hne⟩
      exact ⟨by simpa using hne, (hcwd x hmem).1, (hcwd x hmem).2,
        mem_pySplitChar_no_sep '/' _ x hmem⟩
  · intro p hp
    exact mem_pySplitChar_no_sep '/' _ p hp

theorem splitCharList_cons_sep (sep : Char) (l : List Char) :
    splitCharList sep (sep :: l) = [] :: splitCharList sep l := by
  simp [splitCharList]

/-- **C4** — The path normalizer is idempotent, provided the working
directory contains no `.` or `..` components (the services only ever
store already-normalized cwds). For every string `path`,
`normalize (normalize path cwd) "/" = normalize path cwd`. -/
theorem normalize_idempotent (path cwd : String)
    (hcwd : ∀ p ∈ pySplitChar '/' (pyStripSlash cwd), p ≠ "." ∧ p ≠ "..") :
    normalize (normalize path cwd) "/" = normalize path cwd := by
  have hgood := normParts_good path cwd hcwd
  rw [normalize_eq_join path cwd]
  rcases hps : normParts path cwd with _ | ⟨p0, ps0⟩
  · rfl
  · rw [← hps]
    set parts := normParts path cwd with hpartsdef
    have hne : parts ≠ [] := by
      rw [hps]
      simp
    -- the renormalized path and its characters
    have hdata : ("/" ++ pyJoin '/' parts).data
        = '/' :: joinCharList '/' (parts.map String.data) := rfl
    have hnemp : ("/" ++ pyJoin '/' parts) ≠ "" := by
      intro h
      have := congrArg String.data h
      rw [hdata] at this
      simp at this
    have hstarts : pyStartsWithChar '/' ("/" ++ pyJoin '/' parts) = true := by
      unfold pyStartsWithChar
      rw [hdata]
      simp
    -- splitting the renormalized path recovers the components
    have hsplit : pySplitChar '/' ("/" ++ pyJoin '/' parts) = "" :: parts := by
      unfold pySplitChar
      rw [hdata, splitCharList_cons_sep,
        splitCharList_joinCharList '/' (parts.map String.data)
          (by simpa using hne)
          (by
            intro l hl
            rcases List.mem_map.mp hl with ⟨p, hp, rfl⟩
            exact (hgood p hp).2.2.2)]
      have hcomp : ((fun l => (⟨l⟩ : String)) ∘ String.data) = id := by
        funext p
        exact string_mk_data p
      simp only [List.map_cons, List.map_map]
      rw [hcomp, List.map_id]
    rw [normalize]
    simp only [if_neg hnemp]
    rw [show normBase ("/" ++ pyJoin '/' parts) "/" = [] by
      unfold normBase
      rw [if_pos hstarts]]
    rw [hsplit]
    simp only [List.foldl_cons]
    rw [show normStep [] "" = [] by rfl,
      foldl_normStep_of_good parts hgood []]
    simp

/-- **C4 counterexample** — as literally stated (for every `cwd`),
idempotence fails: with `cwd = "/.."` and the empty path,
`normalize "" "/.."` is `"/.."` but renormalizing it yields `"/"`. -/
theorem normalize_idempotent_cx :
    normalize (normalize "" "/..") "/" ≠ normalize "" "/.." := by
  decide

/-- **C4 witness** — the idempotence theorem applied at a concrete
path and cwd. -/
theorem normalize_idempotent_witness :
    normalize (normalize "a/../b" "/x/y") "/" = normalize "a/../b" "/x/y" :=
  normalize_idempotent "a/../b" "/x/y" (by decide)

/-! ## C5: the FTP PORT command -/

theorem mem_dropWhile_of_not_pred (p : Char → Bool) (l : List Char) (c : Char)
    (hc : c ∈ l) (hp : ¬ p c = true) : c ∈ l.dropWhile p := by
  have hsplitl := List.takeWhile_append_dropWhile (p := p) (l := l)
  rcases List.mem_append.mp (hsplitl ▸ hc) with h | h
  · exact absurd (List.mem_takeWhile_imp h) hp
  · exact h

theorem mem_stripList_of_not_pred (p : Char → Bool) (l : List Char) (c : Char)
    (hc : c ∈ l) (hp : ¬ p c = true) : c ∈ stripList p l := by
  unfold stripList
  have h1 := mem_dropWhile_of_not_pred p l c hc hp
  have h2 : c ∈ (l.dropWhile p).reverse := List.mem_reverse.mpr h1
  exact List.mem_reverse.mpr (mem_dropWhile_of_not_pred p _ c h2 hp)

theorem pyDigits_none_of_dot (l : List Char) (h : '.' ∈ l) :
    pyDigits l = none := by
  have hall : l.all (fun c => c.isDigit || c = '_') = false := by
    rw [List.all_eq_false]
    exact ⟨'.', h, by decide⟩
  simp [pyDigits, pyDigitsShapeOk, hall]

theorem pyIntParse_none_of_dot (s : String) (hdot : '.' ∈ s.data) :
    pyIntParse s = none := by
  have ht : '.' ∈ (pyStripWs s).data :=
    mem_stripList_of_not_pred Char.isWhitespace s.data '.' hdot (by decide)
  unfold pyIntParse pyIntMatch
  split
  · rename_i rest heq
    rw [heq] at ht
    rw [pyDigits_none_of_dot rest (by simpa using ht)]
    rfl
  · rename_i rest heq
    rw [heq] at ht
    rw [pyDigits_none_of_dot rest (by simpa using ht)]
    rfl
  · rename_i h1 h2
    rw [pyDigits_none_of_dot _ ht]
    rfl

/-- The claim's reading of the PORT argument: the comma-separated parts. -/
def portArgParts (arg : String) : List String :=
  pySplitChar ',' arg

/-- The claim's computed port `p1*256 + p2` (unparseable `p1`/`p2`
compute to `0`, as in the source's `ValueError` handler). -/
def specPortOf (arg : String) : Int :=
  match pyIntParse ((portArgParts arg).getD 4 ""),
      pyIntParse ((portArgParts arg).getD 5 "") with
  | some a, some b => a * 256 + b
  | _, _ => 0

/-- The claim's recorded host `h1.h2.h3.h4`. -/
def specHostOf (arg : String) : String :=
  pyJoin '.' ((portArgParts arg).take 4)

/-- The claim's 501 condition, as the spec words it: not six
comma-separated parts, or the first four parts not each integers in
`0..255`, or the computed port outside `(0, 65535]`. -/
def portSpecRejects (arg : String) : Bool :=
  if (portArgParts arg).length ≠ 6 then true
  else if !((portArgParts arg).take 4).all inByteRange then true
  else decide (specPortOf arg ≤ 0) || decide (65535 < specPortOf arg)

theorem testActiveAddress_join (p4 : List String) (hlen : p4.length = 4)
    (port : Int) :
    testActiveAddress (pyJoin '.' p4) port =
      (decide (0 < port) && decide (port ≤ 65535) && p4.all inByteRange) := by
  unfold testActiveAddress
  by_cases h1 : port ≤ 0
  · rw [if_pos (by simp [h1])]
    have : decide (0 < port) = false := by simpa using not_lt.mpr h1
    simp [this]
  · by_cases h2 : port > 65535
    · rw [if_pos (by simp [h2])]
      have : decide (port ≤ 65535) = false := by simpa using not_le.mpr h2
      simp [this]
    · rw [if_neg (by simp [h1, h2])]
      have hne : p4 ≠ [] := by
        intro h
        rw [h] at hlen
        simp at hlen
      by_cases hdot : ∀ p ∈ p4, '.' ∉ p.data
      · rw [pySplitChar_pyJoin '.' p4 hne hdot, if_neg (by simp [hlen])]
        have hp1 : decide (0 < port) = true := by simpa using not_le.mp h1
        have hp2 : decide (port ≤ 65535) = true := by simpa using not_lt.mp h2
        simp [hp1, hp2]
      · push_neg at hdot
        rcases hdot with ⟨p, hp, hpdot⟩
        -- the dotted join re-splits into more than four pieces
        have hsplitlen : (pySplitChar '.' (pyJoin '.' p4)).length ≥ 5 := by
          unfold pySplitChar pyJoin
          rw [List.length_map,
            show (⟨joinCharList '.' (p4.map String.data)⟩ : String).data
              = joinCharList '.' (p4.map String.data) from rfl,
            length_splitCharList,
            count_joinCharList '.' (p4.map String.data) (by simpa using hne)]
          have hcount : 1 ≤ p.data.count '.' := List.one_le_count_iff.mpr hpdot
          have hmem : p.data.count '.'
              ∈ (p4.map String.data).map (fun q => q.count '.') := by
            rw [List.map_map]
            exact List.mem_map.mpr ⟨p, hp, rfl⟩
          have hle : p.data.count '.'
              ≤ ((p4.map String.data).map (fun q => q.count '.')).sum :=
            List.le_sum_of_mem hmem
          have hlen4 : (p4.map String.data).length = 4 := by simp [hlen]
          omega
        rw [if_pos (by omega)]
        have hbad : p4.all inByteRange = false := by
          rw [List.all_eq_false]
          refine ⟨p, hp, ?_⟩
          simp [inByteRange, pyIntParse_none_of_dot p hpdot]
        simp [hbad]

/-- **C5** — For every received PORT line in an authenticated session,
the reply is `501 Syntax error in parameters or arguments.` exactly when
the argument fails the spec's syntax conditions (not six comma-separated
parts, first four parts not each integers in `0..255`, or computed port
`p1*256+p2` outside `(0, 65535]`); otherwise the reply is
`200 PORT command successful.` and `(h1.h2.h3.h4, p1*256+p2)` becomes
the active data target (cancelling any pending passive listener). -/
theorem ftp_port_reply (cfg : FtpConfig) (fs : Option FakeFilesystem)
    (env : FtpEnv) (s : FtpState) (rawLine : String)
    (hauth : s.authed = true)
    (hcu : pyUpper (parseFtpLine rawLine).1 = "PORT") :
    ftpStep cfg fs env s rawLine =
      if portSpecRejects (parseFtpLine rawLine).2 then
        ⟨s, ["501 Syntax error in parameters or arguments."], none, false⟩
      else
        ⟨{ s with
            activeTarget := some (specHostOf (parseFtpLine rawLine).2,
              specPortOf (parseFtpLine rawLine).2)
            passivePending := false },
         ["200 PORT command successful."], none, false⟩ := by
  simp only [ftpStep, hcu, hauth]
  simp only [reduceIte]
  simp only [ftpPortBranch]
  set arg := (parseFtpLine rawLine).2 with harg
  by_cases h6 : (pySplitChar ',' arg).length = 6
  · rw [if_pos h6]
    have hlen4 : ((pySplitChar ',' arg).take 4).length = 4 := by
      simp [List.length_take, h6]
    rw [testActiveAddress_join _ hlen4]
    have hport : (match pyIntParse ((pySplitChar ',' arg).getD 4 ""),
        pyIntParse ((pySplitChar ',' arg).getD 5 "") with
      | some a, some b => a * 256 + b
      | _, _ => (0 : Int)) = specPortOf arg := rfl
    rw [hport]
    unfold portSpecRejects portArgParts
    rw [if_neg (by simp [h6])]
    by_cases hall : ((pySplitChar ',' arg).take 4).all inByteRange = true
    · rw [hall]
      by_cases hlo : specPortOf arg ≤ 0
      · have hd : decide (0 < specPortOf arg) = false := by
          simpa using not_lt.mpr hlo
        simp [hd, hlo]
      · by_cases hhi : 65535 < specPortOf arg
        · have hd : decide (specPortOf arg ≤ 65535) = false := by
            simpa using not_le.mpr hhi
          simp [hd, hhi, hlo]
        · have h1 : decide (0 < specPortOf arg) = true := by
            simpa using not_le.mp hlo
          have h2 : decide (specPortOf arg ≤ 65535) = true := by
            simpa using not_lt.mp hhi
          simp [h1, h2, hlo, hhi, specHostOf, portArgParts, h6, hauth]
    · have hallf : ((pySplitChar ',' arg).take 4).all inByteRange = false := by
        simpa using hall
      simp [hallf]
  · rw [if_neg h6]
    unfold portSpecRejects portArgParts
    rw [if_pos (show (pySplitChar ',' arg).length ≠ 6 from h6)]
    simp

/-- **C5 witness** — the PORT theorem applied to a concrete session and
argument: `PORT 10,0,0,1,4,1` is accepted and records
`("10.0.0.1", 1025)`. -/
theorem ftp_port_reply_witness :
    ftpStep ⟨[], none, none, none, none, []⟩ none
        ⟨false, false, false, "", 0, ""⟩
        ⟨some "u", true, "/", "/", none, false⟩ "PORT 10,0,0,1,4,1" =
      ⟨⟨some "u", true, "/", "/", some ("10.0.0.1", 1025), false⟩,
       ["200 PORT command successful."], none, false⟩ := by
  rw [ftp_port_reply ⟨[], none, none, none, none, []⟩ none
    ⟨false, false, false, "", 0, ""⟩
    ⟨some "u", true, "/", "/", none, false⟩ "PORT 10,0,0,1,4,1" rfl (by decide)]
  rfl

/-! ## C1: `cat`/`cd` on a missing path in the shared shell -/

/-- A filesystem whose root holds a single file `a`: the path `b` does
not resolve. -/
def fsMissing : FakeFilesystem :=
  ⟨.dir "" ⟨"0755", "root", "root", ⟨"Apr", 10, "00:00"⟩⟩
    [.file "a" ⟨"0644", "root", "root", ⟨"Apr", 10, "00:00"⟩⟩ "x" none]⟩

/-- **C1** — evaluation at the failing input: `cat b` (and `cd b`) on a
path that raises `NodeNotFound` answers `bash: cat: b` over SSH and
`cat: b` over Telnet — the message carries only `str(exc)` (the missing
name) and never contains `No such file or directory`, because the
`except FilesystemError` clause precedes `except NodeNotFound` and
`NodeNotFound` subclasses `FilesystemError`, leaving the dedicated
handler unreachable. -/
theorem shell_missing_path_eval :
    sshExecuteFilesystemCommand fsMissing "cat b" "/" "/" "root"
        = (some "bash: cat: b", "/")
      ∧ telnetExecuteFilesystemCommand fsMissing "cat b" "/" "/" "root"
        = (some "cat: b", "/")
      ∧ sshExecuteFilesystemCommand fsMissing "cd b" "/" "/" "root"
        = (some "bash: cd: b", "/")
      ∧ telnetExecuteFilesystemCommand fsMissing "cd b" "/" "/" "root"
        = (some "cd: b", "/") := by
  refine ⟨rfl, rfl, rfl, rfl⟩

/-! ## C2: FTP passive-accept timeout -/

/-- **C2** — evaluation at the failing input: a LIST in a session with a
pending passive listener, no active target, and no data client within
the 10 s budget. `_prepare_data_channel` writes
`425 Passive data connection timed out.` and returns `None`, and the
caller then treats `None` as "no channel was ever negotiated", so a
second reply `425 Use PORT or PASV first.` follows on the same control
connection and the passive listener is left pending (`close_passive` is
skipped by the `continue`). -/
theorem ftp_passive_timeout_eval :
    ftpStep ⟨[], none, none, none, none, []⟩ none
        ⟨false, false, false, "", 0, ""⟩
        ⟨some "u", true, "/", "/", none, true⟩ "LIST" =
      ⟨⟨some "u", true, "/", "/", none, true⟩,
       ["425 Passive data connection timed out.",
        "425 Use PORT or PASV first."],
       none, false⟩ := by
  rfl

/-! ## C3: MySQL quit/exit handling -/

/-- **C3 counterexample** — the `command_responses` lookup runs before
the quit/exit check: with a configured response for key `QUIT` (lowered
to `quit` at load time), a received `quit` line is answered with that
response and the connection stays open, so quit does not write the
farewell and close for every configuration. -/
theorem mysql_quit_shadowed_cx :
    mysqlHandleLine ⟨[("QUIT", "ok")], "err", "Bye"⟩ "quit"
        = ⟨"ok" ++ "\n", false⟩
      ∧ mysqlHandleLine ⟨[("QUIT", "ok")], "err", "Bye"⟩ "quit"
        ≠ ⟨"Bye" ++ "\n", true⟩ := by
  refine ⟨rfl, by decide⟩

/-- **C3 (amended)** — a MySQL session line closes the connection
exactly when the stripped line is non-empty, its lowered form misses
`command_responses`, and it is `quit` or `exit`; a closing line writes
the farewell plus newline; and a line whose lowered form hits
`command_responses` is answered with the mapped value plus newline
(never closing), taking precedence over quit/exit. -/
theorem mysql_quit_handling (cfg : MysqlConfig) (rawLine : String) :
    ((mysqlHandleLine cfg rawLine).closed = true ↔
      (pyStripWs rawLine ≠ "" ∧
       pyDictGet (mysqlResponses cfg.commandResponses)
         (pyLower (pyStripWs rawLine)) = none ∧
       (pyLower (pyStripWs rawLine) = "quit" ∨
        pyLower (pyStripWs rawLine) = "exit")))
    ∧ ((mysqlHandleLine cfg rawLine).closed = true →
        (mysqlHandleLine cfg rawLine).written = cfg.farewell ++ "\n")
    ∧ (∀ r, pyDictGet (mysqlResponses cfg.commandResponses)
         (pyLower (pyStripWs rawLine)) = some r →
        pyStripWs rawLine ≠ "" →
        mysqlHandleLine cfg rawLine = ⟨r ++ "\n", false⟩) := by
  unfold mysqlHandleLine
  by_cases he : pyStripWs rawLine = ""
  · simp [he]
  · simp only [if_neg he]
    rcases hd : pyDictGet (mysqlResponses cfg.commandResponses)
        (pyLower (pyStripWs rawLine)) with _ | r
    · by_cases hq : pyLower (pyStripWs rawLine) = "quit"
        ∨ pyLower (pyStripWs rawLine) = "exit"
      · have hqb : (pyLower (pyStripWs rawLine) = "quit"
            || pyLower (pyStripWs rawLine) = "exit") = true := by
          rcases hq with hq | hq <;> simp [hq]
        simp [hqb, he, hq]
      · have hqb : (pyLower (pyStripWs rawLine) = "quit"
            || pyLower (pyStripWs rawLine) = "exit") = false := by
          push_neg at hq
          simp [hq.1, hq.2]
        simp [hqb, he, hq]
    · simp [hd, he]

/-- **C3 witness** — the amended theorem applied to a configuration
without a `quit` response: a `quit` line writes `Bye` and a newline. -/
theorem mysql_quit_handling_witness :
    (mysqlHandleLine ⟨[], "err", "Bye"⟩ "quit").written = "Bye" ++ "\n" :=
  (mysql_quit_handling ⟨[], "err", "Bye"⟩ "quit").2.1 (by decide)

/-! ## C6: the HTTP 404 route miss -/

theorem string_append_assoc (a b c : String) : (a ++ b) ++ c = a ++ (b ++ c) := by
  cases a
  cases b
  cases c
  exact congrArg String.mk (List.append_assoc _ _ _)

theorem find?_key_eq_none (l : List (String × String)) (k : String)
    (hany : ¬ l.any (fun kv => kv.1 = k) = true) :
    l.find? (fun kv => kv.1 = k) = none := by
  rw [List.find?_eq_none]
  intro kv hkv
  simp only [decide_eq_true_eq]
  intro hcon
  exact hany (List.any_eq_true.mpr ⟨kv, hkv, by simpa using hcon⟩)

theorem dictGet_dictSet_self (l : List (String × String)) (k v : String) :
    dictGet (dictSet l k v) k = some v := by
  unfold dictSet dictGet
  by_cases hany : l.any (fun kv => kv.1 = k) = true
  · rw [if_pos hany]
    induction l with
    | nil => simp at hany
    | cons kv rest ih =>
      by_cases hk : kv.1 = k
      · simp [List.find?, hk]
      · simp only [List.any_cons] at hany
        rcases Bool.or_eq_true_iff.mp hany with hcase | hcase
        · exact absurd (by simpa using hcase) hk
        · simp only [List.map_cons, if_neg hk, List.find?]
          rw [show ((kv.1 = k : Bool)) = false by simpa using hk]
          exact ih hcase
  · rw [if_neg hany, List.find?_append, find?_key_eq_none l k hany]
    simp [List.find?]

theorem find?_key_map_set (l : List (String × String)) (k kp v : String)
    (h : ¬ k = kp) :
    List.find? (fun kv => kv.1 = k)
        (l.map (fun kv => if kv.1 = kp then (kp, v) else kv))
      = List.find? (fun kv => kv.1 = k) l := by
  rw [List.find?_map]
  have hp : ((fun kv : String × String => (kv.1 = k : Bool))
      ∘ (fun kv => if kv.1 = kp then (kp, v) else kv))
      = (fun kv : String × String => (kv.1 = k : Bool)) := by
    funext kv
    by_cases hk : kv.1 = kp
    · simp [Function.comp, hk]
    · simp [Function.comp, hk]
  rw [hp]
  cases hfind : l.find? (fun kv => kv.1 = k) with
  | none => rfl
  | some kv =>
    have hk : kv.1 = k := by simpa using List.find?_some hfind
    simp [Option.map, if_neg (show ¬ kv.1 = kp from fun he => h (hk.symm.trans he))]

theorem dictGet_dictSet_ne (l : List (String × String)) (k kp v : String)
    (h : ¬ k = kp) : dictGet (dictSet l kp v) k = dictGet l k := by
  unfold dictSet dictGet
  by_cases hany : l.any (fun kv => kv.1 = kp) = true
  · rw [if_pos hany, find?_key_map_set l k kp v h]
  · rw [if_neg hany, List.find?_append]
    have h1 : List.find? (fun kv => kv.1 = k) [(kp, v)] = none := by
      simp only [List.find?]
      rw [show (decide ((kp, v).1 = k)) = false by
        simp only [decide_eq_false_iff_not]
        exact fun he => h he.symm]
    rw [h1]
    cases hfind : l.find? (fun kv => kv.1 = k) <;> rfl

/-- **C6** — on a route miss with no `not_found` route and the default
404 status, the response's status line is `<version> 404 Not Found`, its
body is exactly `404 Not Found\n`, its `Content-Length` header is `14`,
and its `Server` header is the configured `server_header`. -/
theorem http_route_miss (svc : HttpServiceState) (fileRead : String → String)
    (method path version date : String)
    (hmiss : matchRoute svc.routes method path = none)
    (hnf : svc.notFound = none)
    (hstatus : svc.defaultStatus = 404) :
    (buildResponseParts svc fileRead (matchRoute svc.routes method path)
        version date).statusLine = version ++ " 404 Not Found\r\n"
      ∧ (buildResponseParts svc fileRead (matchRoute svc.routes method path)
          version date).body = "404 Not Found\n"
      ∧ dictGet (buildResponseParts svc fileRead
          (matchRoute svc.routes method path) version date).headers
            "Content-Length" = some "14"
      ∧ dictGet (buildResponseParts svc fileRead
          (matchRoute svc.routes method path) version date).headers
            "Server" = some svc.serverHeader := by
  rw [hmiss]
  simp only [buildResponseParts, hnf, hstatus]
  refine ⟨?_, by decide, ?_, ?_⟩
  · simp only [string_append_assoc]
    congr 1
  · rw [dictGet_dictSet_self]
    decide
  · rw [dictGet_dictSet_ne _ _ _ _ (by decide),
      dictGet_dictSet_ne _ _ _ _ (by decide)]
    exact dictGet_dictSet_self _ "Server" svc.serverHeader

/-- **C6 witness** — the route-miss theorem applied to a concrete
service with no routes. -/
theorem http_route_miss_witness :
    (buildResponseParts ⟨"Apache/2.4.52 (Ubuntu)", 404, [], [], none⟩
        (fun _ => "") (matchRoute [] "GET" "/nope") "HTTP/1.0" "D").statusLine
          = "HTTP/1.0" ++ " 404 Not Found\r\n"
      ∧ (buildResponseParts ⟨"Apache/2.4.52 (Ubuntu)", 404, [], [], none⟩
          (fun _ => "") (matchRoute [] "GET" "/nope") "HTTP/1.0" "D").body
            = "404 Not Found\n"
      ∧ dictGet (buildResponseParts ⟨"Apache/2.4.52 (Ubuntu)", 404, [], [], none⟩
          (fun _ => "") (matchRoute [] "GET" "/nope") "HTTP/1.0" "D").headers
            "Content-Length" = some "14"
      ∧ dictGet (buildResponseParts ⟨"Apache/2.4.52 (Ubuntu)", 404, [], [], none⟩
          (fun _ => "") (matchRoute [] "GET" "/nope") "HTTP/1.0" "D").headers
            "Server" = some ("Apache/2.4.52 (Ubuntu)" : String) :=
  http_route_miss ⟨"Apache/2.4.52 (Ubuntu)", 404, [], [], none⟩ (fun _ => "")
    "GET" "/nope" "HTTP/1.0" "D" rfl rfl rfl

/-! ## C7: the `total` line of a detailed listing -/

theorem listDirectory_ok_dir (fs : FakeFilesystem) (path cwd : String)
    (includeHidden : Bool) (nodes : List Node)
    (hlist : fs.listDirectory path cwd includeHidden = .ok nodes) :
    ∃ nm mt cs, fs.resolve path cwd = .ok (.dir nm mt cs) := by
  unfold FakeFilesystem.listDirectory at hlist
  cases hres : fs.resolve path cwd with
  | error e =>
    rw [hres] at hlist
    simp at hlist
  | ok node =>
    rw [hres] at hlist
    cases node with
    | file nm mt c so => simp at hlist
    | dir nm mt cs => exact ⟨nm, mt, cs, rfl⟩

/-- **C7 (amended)** — in detailed mode the first line of a directory
listing is `total N` where `N` sums `max(1, size // 1024)` over the
*listed* children (sorted, hidden names filtered out unless
`include_hidden`), not over all children of the directory. -/
theorem ls_total_first_line (fs : FakeFilesystem) (path cwd : String)
    (includeHidden : Bool) (nodes : List Node)
    (hlist : fs.listDirectory path cwd includeHidden = .ok nodes) :
    ∃ rest, fs.formatLsLines path cwd true includeHidden
      = .ok (("total " ++ toString ((nodes.map
          (fun n => max 1 (n.size / 1024))).foldl (· + ·) 0)) :: rest) := by
  obtain ⟨nm, mt, cs, hres⟩ :=
    listDirectory_ok_dir fs path cwd includeHidden nodes hlist
  unfold FakeFilesystem.formatLsLines
  rw [hres, hlist]
  cases includeHidden with
  | false =>
    exact ⟨List.map (fun n => describeNode n true) nodes, by simp [Node.isDir]⟩
  | true =>
    exact ⟨describeSpecial (Node.dir nm mt cs) true "."
        :: describeSpecial (fs.parentNode (normalize path cwd)
            (Node.dir nm mt cs)) true ".."
        :: List.map (fun n => describeNode n true) nodes,
      by simp [Node.isDir]⟩

/-- A root with a hidden 2 KiB file `.h` and an empty visible file `a`. -/
def fsHidden : FakeFilesystem :=
  ⟨.dir "" ⟨"0755", "root", "root", ⟨"Apr", 10, "00:00"⟩⟩
    [.file ".h" ⟨"0644", "root", "root", ⟨"Apr", 10, "00:00"⟩⟩ "" (some 2048),
     .file "a" ⟨"0644", "root", "root", ⟨"Apr", 10, "00:00"⟩⟩ "" none]⟩

/-- The total the claim describes: summed over all of the directory's
children. -/
def claimedLsTotal : Node → Nat
  | .dir _ _ cs => (cs.map (fun c => max 1 (c.size / 1024))).foldl (· + ·) 0
  | .file _ _ _ _ => 0

/-- **C7 counterexample** — `ls -l` on a directory with a hidden 2 KiB
child prints `total 1` (only the listed child `a` counts), while the sum
over all children is `3`: the claim's `N` over the directory's children
does not match the emitted line. -/
theorem ls_total_cx :
    (match fsHidden.formatLsLines "." "/" true false with
     | .ok lines => lines.head?
     | .error _ => none) = some "total 1"
    ∧ claimedLsTotal fsHidden.root = 3
    ∧ ("total 1" : String) ≠ "total " ++ toString (claimedLsTotal fsHidden.root) := by
  refine ⟨rfl, rfl, by decide⟩

/-- **C7 witness** — the amended theorem applied to `fsHidden` without
hidden entries: the listed children are exactly `[a]`. -/
theorem ls_total_first_line_witness :
    ∃ rest, fsHidden.formatLsLines "." "/" true false
      = .ok (("total " ++ toString ((([(.file "a"
            ⟨"0644", "root", "root", ⟨"Apr", 10, "00:00"⟩⟩ "" none : Node)]).map
          (fun n => max 1 (n.size / 1024))).foldl (· + ·) 0)) :: rest) :=
  ls_total_first_line fsHidden "." "/" false
    [.file "a" ⟨"0644", "root", "root", ⟨"Apr", 10, "00:00"⟩⟩ "" none] (by rfl)

/-! ## C8: the event-record shape -/

theorem keys_jdictSet_of_mem (l : List (String × JVal)) (kp : String)
    (v : JVal) (k : String) (h : k ∈ l.map Prod.fst) :
    k ∈ (jdictSet l kp v).map Prod.fst := by
  unfold jdictSet
  by_cases hany : l.any (fun kv => kv.1 = kp) = true
  · rw [if_pos hany]
    have hkeys : (l.map (fun kv => if kv.1 = kp then (kp, v) else kv)).map
        Prod.fst = l.map Prod.fst := by
      rw [List.map_map]
      apply List.map_congr_left
      intro kv _
      by_cases hk : kv.1 = kp
      · simp [Function.comp, hk]
      · simp [Function.comp, hk]
    rw [hkeys]
    exact h
  · rw [if_neg hany, List.map_append]
    exact List.mem_append_left _ h

theorem keys_jdictMerge_of_mem (details : List (String × JVal)) :
    ∀ acc : List (String × JVal), ∀ k, k ∈ acc.map Prod.fst →
      k ∈ (jdictMerge acc details).map Prod.fst := by
  induction details with
  | nil => intro acc k h; exact h
  | cons kv rest ih =>
    intro acc k h
    exact ih _ k (keys_jdictSet_of_mem acc kv.1 kv.2 k h)

theorem hexDigit_ne_newline : ∀ n, n < 16 → hexDigit n ≠ Char.ofNat 10 := by
  decide

theorem jsonEscapeChar_no_newline (c : Char) : '\n' ∉ jsonEscapeChar c := by
  unfold jsonEscapeChar
  split_ifs with h1 h2 h3 h4 h5 h6 h7 h8
  · decide
  · decide
  · decide
  · decide
  · decide
  · decide
  · decide
  · intro hmem
    have hhi := hexDigit_ne_newline (c.toNat / 16)
      (Nat.div_lt_of_lt_mul (by omega))
    have hlo := hexDigit_ne_newline (c.toNat % 16) (Nat.mod_lt _ (by omega))
    rcases List.mem_cons.mp hmem with h | hmem
    · exact absurd h (by decide)
    rcases List.mem_cons.mp hmem with h | hmem
    · exact absurd h (by decide)
    rcases List.mem_cons.mp hmem with h | hmem
    · exact absurd h (by decide)
    rcases List.mem_cons.mp hmem with h | hmem
    · exact absurd h (by decide)
    rcases List.mem_cons.mp hmem with h | hmem
    · exact hhi h.symm
    rcases List.mem_cons.mp hmem with h | hmem
    · exact hlo h.symm
    simp at hmem
  · intro hmem
    simp at hmem
    exact h3 hmem.symm

theorem jsonEscape_no_newline (s : String) : '\n' ∉ jsonEscape s := by
  unfold jsonEscape
  intro hmem
  rcases List.mem_flatMap.mp hmem with ⟨c, _, hc⟩
  exact jsonEscapeChar_no_newline c hc

theorem natDigitsRev_no_newline (n : Nat) : ∀ c ∈ natDigitsRev n, c ≠ '\n' := by
  induction n using Nat.strong_induction_on with
  | _ n ih =>
    rw [natDigitsRev]
    split
    · intro c hc
      rename_i h
      simp at hc
      subst hc
      have : ∀ m, m < 10 → Char.ofNat (48 + m) ≠ '\n' := by decide
      exact this n h
    · intro c hc
      rename_i h
      rcases List.mem_cons.mp hc with hc | hc
      · subst hc
        have : ∀ m, m < 10 → Char.ofNat (48 + m) ≠ '\n' := by decide
        exact this (n % 10) (Nat.mod_lt n (by omega))
      · exact ih (n / 10) (Nat.div_lt_self (by omega) (by omega)) c hc

theorem intRepr_no_newline (n : Int) : ∀ c ∈ intRepr n, c ≠ '\n' := by
  unfold intRepr
  split <;> intro c hc
  · rcases List.mem_cons.mp hc with hc | hc
    · subst hc
      decide
    · exact natDigitsRev_no_newline n.natAbs c (List.mem_reverse.mp hc)
  · exact natDigitsRev_no_newline n.natAbs c (List.mem_reverse.mp hc)

theorem jvalDump_no_newline (v : JVal) : '\n' ∉ jvalDump v := by
  cases v with
  | str s =>
    intro hmem
    unfold jvalDump at hmem
    rcases List.mem_cons.mp hmem with h | h
    · exact absurd h (by decide)
    · rcases List.mem_append.mp h with h | h
      · exact jsonEscape_no_newline s h
      · simp at h
  | bool b =>
    cases b <;> decide
  | num n =>
    intro hmem
    exact intRepr_no_newline n '\n' hmem rfl
  | null => decide

theorem joinWithSep_no_newline (sep : List Char) (hsep : '\n' ∉ sep)
    (ls : List (List Char)) (h : ∀ l ∈ ls, '\n' ∉ l) :
    '\n' ∉ joinWithSep sep ls := by
  induction ls with
  | nil => simp [joinWithSep]
  | cons x rest ih =>
    cases rest with
    | nil => exact h x (by simp)
    | cons y ys =>
      intro hmem
      rcases List.mem_append.mp hmem with hm | hm
      · rcases List.mem_append.mp hm with hm | hm
        · exact h x (by simp) hm
        · exact hsep hm
      · exact ih (fun l hl => h l (List.mem_cons_of_mem x hl)) hm

theorem jsonDumps_no_newline (obj : List (String × JVal)) :
    '\n' ∉ (jsonDumps obj).data := by
  unfold jsonDumps
  intro hmem
  rcases List.mem_cons.mp hmem with h | h
  · exact absurd h (by decide)
  · rcases List.mem_append.mp h with h | h
    · refine joinWithSep_no_newline (", ".data) (by decide) _ ?_ h
      intro l hl
      rcases List.mem_map.mp hl with ⟨kv, _, rfl⟩
      intro hm
      rcases List.mem_cons.mp hm with hm | hm
      · exact absurd hm (by decide)
      · rcases List.mem_append.mp hm with hm | hm
        · rcases List.mem_append.mp hm with hm | hm
          · exact jsonEscape_no_newline kv.1 hm
          · simp at hm
        · exact jvalDump_no_newline kv.2 hm
    · simp at h

/-- **C8** — every record `log_event` writes is a single JSON line (the
serialized payload contains no newline; the write appends exactly one
`\n`) whose keys always include `ts`, `service` and `event`; and the
`login_attempt` events emitted by the SSH, Telnet and FTP services
additionally carry `username`, `password` and `success` keys. -/
theorem log_event_record_shape :
    (∀ service ts event details,
      "ts" ∈ (logEventPayload service ts event details).map Prod.fst
      ∧ "service" ∈ (logEventPayload service ts event details).map Prod.fst
      ∧ "event" ∈ (logEventPayload service ts event details).map Prod.fst
      ∧ '\n' ∉ (jsonDumps (logEventPayload service ts event details)).data)
    ∧ (∀ ts client password success, ∀ username : Option String,
      ∀ k ∈ ["username", "password", "success"],
        k ∈ (logEventPayload "ftp" ts "login_attempt"
          (ftpLoginAttemptDetails client username password success)).map Prod.fst)
    ∧ (∀ ts client username password success,
      ∀ k ∈ ["username", "password", "success"],
        k ∈ (logEventPayload "ssh" ts "login_attempt"
          (sshLoginAttemptDetails client username password success)).map Prod.fst)
    ∧ (∀ ts client username password success,
      ∀ k ∈ ["username", "password", "success"],
        k ∈ (logEventPayload "telnet" ts "login_attempt"
          (telnetLoginAttemptDetails client username password success)).map Prod.fst) := by
  refine ⟨?_, ?_, ?_, ?_⟩
  · intro service ts event details
    refine ⟨?_, ?_, ?_, jsonDumps_no_newline _⟩
    · exact keys_jdictMerge_of_mem details _ "ts" (by simp)
    · exact keys_jdictMerge_of_mem details _ "service" (by simp)
    · exact keys_jdictMerge_of_mem details _ "event" (by simp)
  · intro ts client password success username k hk
    have hkeys : (logEventPayload "ftp" ts "login_attempt"
        (ftpLoginAttemptDetails client username password success)).map Prod.fst
        = ["ts", "service", "event", "client", "protocol", "username",
           "password", "success"] := rfl
    rw [hkeys]
    simp at hk
    rcases hk with hk | hk | hk <;> subst hk <;> decide
  · intro ts client username password success k hk
    have hkeys : (logEventPayload "ssh" ts "login_attempt"
        (sshLoginAttemptDetails client username password success)).map Prod.fst
        = ["ts", "service", "event", "client", "protocol", "username",
           "password", "success"] := rfl
    rw [hkeys]
    simp at hk
    rcases hk with hk | hk | hk <;> subst hk <;> decide
  · intro ts client username password success k hk
    have hkeys : (logEventPayload "telnet" ts "login_attempt"
        (telnetLoginAttemptDetails client username password success)).map Prod.fst
        = ["ts", "service", "event", "client", "protocol", "username",
           "password", "success"] := rfl
    rw [hkeys]
    simp at hk
    rcases hk with hk | hk | hk <;> subst hk <;> decide

/-- **C8 witness** — the record-shape theorem applied to a concrete FTP
login attempt (no USER yet, so the username is null). -/
theorem log_event_record_shape_witness :
    "username" ∈ (logEventPayload "ftp" "T" "login_attempt"
      (ftpLoginAttemptDetails "C" none "p" false)).map Prod.fst :=
  log_event_record_shape.2.1 "T" "C" "p" false none "username" (by decide)

/-! ## C9: the FTP authentication gate -/

theorem ftp_pass_invalid_aux (cfg : FtpConfig) (fs : Option FakeFilesystem)
    (env : FtpEnv) (s : FtpState) (rawLine : String)
    (hcu : pyUpper (parseFtpLine rawLine).1 = "PASS")
    (hfail : ftpPassSuccess cfg.users s.username (parseFtpLine rawLine).2 = false) :
    ftpStep cfg fs env s rawLine =
      ⟨{ s with authed := false }, ["530 Login incorrect."], none, false⟩ := by
  simp only [ftpStep, hcu]
  simp only [reduceIte]
  simp [ftpPassBranch, hfail]

theorem ftp_gate_530_aux (cfg : FtpConfig) (fs : Option FakeFilesystem)
    (env : FtpEnv) (s : FtpState) (rawLine : String)
    (hauth : s.authed = false)
    (hmem : pyUpper (parseFtpLine rawLine).1 ∉
      (["USER", "PASS", "QUIT", "NOOP"] : List String)) :
    ftpStep cfg fs env s rawLine =
      ⟨s, ["530 Please login with USER and PASS."], none, false⟩ := by
  simp only [ftpStep]
  set cu := pyUpper (parseFtpLine rawLine).1 with hcu
  have h1 : ¬ cu = "USER" := fun h => hmem (by simp [h])
  have h2 : ¬ cu = "PASS" := fun h => hmem (by simp [h])
  have h3 : ¬ cu = "QUIT" := fun h => hmem (by simp [h])
  have h4 : ¬ cu = "NOOP" := fun h => hmem (by simp [h])
  rw [if_neg h1, if_neg h2, if_pos (by rw [hauth]; simp [h1, h2, h3, h4])]

theorem ftp_auth_only_by_pass_aux (cfg : FtpConfig) (fs : Option FakeFilesystem)
    (env : FtpEnv) (s : FtpState) (rawLine : String)
    (hauth : s.authed = false)
    (hflip : (ftpStep cfg fs env s rawLine).state.authed = true) :
    pyUpper (parseFtpLine rawLine).1 = "PASS"
      ∧ ftpPassSuccess cfg.users s.username (parseFtpLine rawLine).2 = true := by
  by_cases h1 : pyUpper (parseFtpLine rawLine).1 = "USER"
  · exfalso
    simp [ftpStep, h1, ftpUserBranch, hauth] at hflip
  by_cases h2 : pyUpper (parseFtpLine rawLine).1 = "PASS"
  · by_cases hsucc : ftpPassSuccess cfg.users s.username (parseFtpLine rawLine).2 = true
    · exact ⟨h2, hsucc⟩
    · exfalso
      rw [Bool.not_eq_true] at hsucc
      simp [ftpStep, h2, ftpPassBranch, hsucc, hauth] at hflip
  by_cases h3 : pyUpper (parseFtpLine rawLine).1 = "QUIT"
  · exfalso
    simp [ftpStep, h3, hauth] at hflip
  by_cases h4 : pyUpper (parseFtpLine rawLine).1 = "NOOP"
  · exfalso
    simp [ftpStep, h4, hauth] at hflip
  · exfalso
    simp [ftpStep, h1, h2, h3, h4, hauth] at hflip

/-- **C9** — the FTP authentication gate: (1) a PASS with invalid
credentials replies `530 Login incorrect.` and sets the session
unauthenticated, regardless of any earlier successful login; (2) while
unauthenticated, every command other than USER, PASS, QUIT and NOOP is
answered `530 Please login with USER and PASS.` with the session state
unchanged; (3) from an unauthenticated state, only a PASS whose
credentials check out can make the session authenticated again. -/
theorem ftp_reauth_gate :
    (∀ (cfg : FtpConfig) (fs : Option FakeFilesystem) (env : FtpEnv)
        (s : FtpState) (rawLine : String),
      pyUpper (parseFtpLine rawLine).1 = "PASS" →
      ftpPassSuccess cfg.users s.username (parseFtpLine rawLine).2 = false →
      ftpStep cfg fs env s rawLine =
        ⟨{ s with authed := false }, ["530 Login incorrect."], none, false⟩)
    ∧ (∀ (cfg : FtpConfig) (fs : Option FakeFilesystem) (env : FtpEnv)
        (s : FtpState) (rawLine : String),
      s.authed = false →
      pyUpper (parseFtpLine rawLine).1 ∉
        (["USER", "PASS", "QUIT", "NOOP"] : List String) →
      ftpStep cfg fs env s rawLine =
        ⟨s, ["530 Please login with USER and PASS."], none, false⟩)
    ∧ (∀ (cfg : FtpConfig) (fs : Option FakeFilesystem) (env : FtpEnv)
        (s : FtpState) (rawLine : String),
      s.authed = false →
      (ftpStep cfg fs env s rawLine).state.authed = true →
      pyUpper (parseFtpLine rawLine).1 = "PASS"
        ∧ ftpPassSuccess cfg.users s.username (parseFtpLine rawLine).2 = true) :=
  ⟨ftp_pass_invalid_aux, ftp_gate_530_aux, ftp_auth_only_by_pass_aux⟩

/-- **C9 witness** — an invalid PASS in an authenticated session drops
the session back to unauthenticated with `530 Login incorrect.`. -/
theorem ftp_reauth_gate_witness :
    ftpStep ⟨[], none, none, none, none, []⟩ none
        ⟨false, false, false, "", 0, ""⟩
        ⟨some "u", true, "/", "/", none, false⟩ "PASS x" =
      ⟨⟨some "u", false, "/", "/", none, false⟩,
       ["530 Login incorrect."], none, false⟩ :=
  ftp_reauth_gate.1 ⟨[], none, none, none, none, []⟩ none
    ⟨false, false, false, "", 0, ""⟩
    ⟨some "u", true, "/", "/", none, false⟩ "PASS x" rfl rfl

/-! ## C10: `resolve_home` fallback -/

/-- Whether a path resolves (against the root) to an existing directory
node. -/
def isDirAt (f : FakeFilesystem) (p : String) : Bool :=
  match f.resolve p "/" with
  | .ok node => node.isDir
  | .error _ => false

set_option maxHeartbeats 2000000 in
/-- **C10** — in all three filesystem-backed services, the session home
is the normalized configured path when that path resolves to an existing
directory node, and falls back to `/` otherwise (missing node, file
node, or resolution error). -/
theorem resolve_home_fallback (f : FakeFilesystem) (desired : String) :
    sshResolveHome (some f) desired
        = (if isDirAt f (normalize desired "/") then normalize desired "/" else "/")
      ∧ telnetResolveHome (some f) desired
        = (if isDirAt f (normalize desired "/") then normalize desired "/" else "/")
      ∧ ftpResolveHome (some f) desired
        = (if isDirAt f (normalize desired "/") then normalize desired "/" else "/") := by
  simp only [sshResolveHome, telnetResolveHome, ftpResolveHome, isDirAt]
  set r := f.resolve (normalize desired "/") "/" with hr
  clear_value r
  cases r with
  | ok node =>
    simp only [← hr]
    cases hdir : node.isDir <;> simp [hdir]
  | error e =>
    simp only [← hr]
    simp

end Honeypot
